import Mathlib

/-!
Verification development for the katana headless crawl engine
(pkg/engine/headless/crawler and its normalizer package).

The development shallowly embeds:
* the document pre/post-processor `normalizeDocument` and its helpers
  (normalizer.go), including executable models of the Go standard library
  functions it calls (strings.ToLower, strconv.ParseInt, html.UnescapeString,
  url.QueryUnescape, regexp replacement);
* the text normalizer and its default regex pattern catalogue (text_utils.go);
* the DOM-stripping pass `stripTextContent` over an executable model of
  HTML parsing/serialization (golang.org/x/net/html as used via goquery);
* the full pipeline `Normalizer.Apply`;
* the crawl loop `Crawler.Crawl` / `Crawler.crawlFn` (crawler.go) as a
  deterministic interpreter over an explicit environment that supplies the
  results of every browser-facing call;
* the form-fill application step `applyFormSuggestions` (form fill file).

Where a function of this repository is referenced but its source file is not
available (DOMNormalizer.Apply, dateTimePatterns, types.Action.Hash, the
EMPTY_PAGE sentinel, the crawl graph container), the definition is modelled
from the spec and marked as such in its doc comment.
-/

set_option maxRecDepth 100000

/-! ## Character and string helpers (models of Go standard library behavior) -/

/-- Go's ASCII lowercase conversion of one character (inputs in this
development are ASCII apart from currency symbols, which ToLower leaves
unchanged). -/
def charToLower (c : Char) : Char :=
  if 'A' ≤ c && c ≤ 'Z' then Char.ofNat (c.toNat + 32) else c

/-- Models strings.ToLower. -/
def goToLower (s : String) : String :=
  String.mk (s.data.map charToLower)

/-- Models strings.Trim: remove leading and trailing characters of the cutset. -/
def goTrim (s : String) (cutset : List Char) : String :=
  String.mk (((s.data.dropWhile (cutset.contains ·)).reverse.dropWhile
    (cutset.contains ·)).reverse)

/-- Models strings.TrimPrefix: drop the prefix when present, else return unchanged. -/
def goTrimPrefixOf (s pre : String) : String :=
  if pre.data.isPrefixOf s.data then String.mk (s.data.drop pre.data.length) else s

def isDigitChar (c : Char) : Bool :=
  ('0' ≤ c && c ≤ '9')

def isHexDigitChar (c : Char) : Bool :=
  ('0' ≤ c && c ≤ '9') || ('a' ≤ c && c ≤ 'f') || ('A' ≤ c && c ≤ 'F')

/-- Numeric value of a hexadecimal digit (callers guarantee `isHexDigitChar`). -/
def hexDigitVal (c : Char) : Nat :=
  if c ≤ '9' then c.toNat - 48
  else if c ≤ 'F' then c.toNat - 55
  else c.toNat - 87

def hexValOfDigits (ds : List Char) : Nat :=
  ds.foldl (fun acc c => 16 * acc + hexDigitVal c) 0

def decValOfDigits (ds : List Char) : Nat :=
  ds.foldl (fun acc c => 10 * acc + (c.toNat - 48)) 0

/-- Models strconv.ParseInt(s, 16, 32): optional sign, one or more hex digits,
result within the int32 range; `none` models Go returning a non-nil error
(syntax error or range error). -/
def goParseIntHex32 (s : String) : Option Int :=
  match s.data with
  | [] => none
  | c :: rest =>
    let neg : Bool := c = '-'
    let digits : List Char := if c = '+' || c = '-' then rest else c :: rest
    if digits.isEmpty then none
    else if digits.all isHexDigitChar then
      let v : Nat := hexValOfDigits digits
      if neg then
        if v ≤ 2 ^ 31 then some (-(v : Int)) else none
      else
        if v < 2 ^ 31 then some (v : Int) else none
    else none

/-- Models fmt.Sprintf with the lowercase hexadecimal verb on a natural number. -/
def natToHexLower (n : Nat) : String :=
  String.mk (Nat.toDigits 16 n)

/-- Models fmt.Sprintf with the lowercase hexadecimal verb on an integer. -/
def intToHexLower (i : Int) : String :=
  if i < 0 then "-" ++ natToHexLower i.natAbs else natToHexLower i.natAbs

/-! ## A small regex engine

Models the semantics of Go's regexp package as used by the crawler: ordered
(leftmost-first, "what a backtracking search would find first") matching with
greedy quantifiers, ASCII word boundaries, and non-overlapping global
replacement. Patterns are written as explicit syntax trees; each pattern
definition cites the Go pattern string it translates. -/

inductive Regex where
  | eps : Regex
  /-- character class given by inclusive ranges; `ci` makes it case-insensitive -/
  | cls (ranges : List (Char × Char)) (ci : Bool) : Regex
  | concat (r1 r2 : Regex) : Regex
  | alt (r1 r2 : Regex) : Regex
  | star (r : Regex) : Regex
  /-- ASCII word boundary `\b` -/
  | wordB : Regex

def swapCase (c : Char) : Char :=
  if 'a' ≤ c && c ≤ 'z' then Char.ofNat (c.toNat - 32)
  else if 'A' ≤ c && c ≤ 'Z' then Char.ofNat (c.toNat + 32)
  else c

def inRanges (c : Char) (ranges : List (Char × Char)) : Bool :=
  ranges.any fun p => p.1 ≤ c && c ≤ p.2

def clsMatches (c : Char) (ranges : List (Char × Char)) (ci : Bool) : Bool :=
  inRanges c ranges || (ci && inRanges (swapCase c) ranges)

def isWordChar (c : Char) : Bool :=
  ('0' ≤ c && c ≤ '9') || ('a' ≤ c && c ≤ 'z') || ('A' ≤ c && c ≤ 'Z') || c = '_'

/-- `\b` holds between the previous character (none at the start of the text)
and the rest of the input. -/
def atWordBoundary (prev : Option Char) (s : List Char) : Bool :=
  let l := match prev with | none => false | some c => isWordChar c
  let r := match s with | [] => false | c :: _ => isWordChar c
  l != r

/-- Backtracking matcher. Returns the possible (last-consumed-char, remaining
input) states in backtracking preference order; the head of the list is the
match a leftmost-first engine commits to. The fuel only bounds recursion depth
and is chosen large enough by callers. -/
def rmatch (fuel : Nat) (r : Regex) (prev : Option Char) (s : List Char) :
    List (Option Char × List Char) :=
  match fuel with
  | 0 => []
  | fuel + 1 =>
    match r with
    | .eps => [(prev, s)]
    | .wordB => if atWordBoundary prev s then [(prev, s)] else []
    | .cls ranges ci =>
      match s with
      | [] => []
      | c :: rest => if clsMatches c ranges ci then [(some c, rest)] else []
    | .concat r1 r2 =>
      (rmatch fuel r1 prev s).flatMap fun pr => rmatch fuel r2 pr.1 pr.2
    | .alt r1 r2 => rmatch fuel r1 prev s ++ rmatch fuel r2 prev s
    | .star r1 =>
      (((rmatch fuel r1 prev s).filter fun pr => pr.2.length < s.length).flatMap
        fun pr => rmatch fuel (.star r1) pr.1 pr.2) ++ [(prev, s)]

def Regex.size : Regex → Nat
  | .eps => 1
  | .wordB => 1
  | .cls _ _ => 1
  | .concat r1 r2 => r1.size + r2.size + 1
  | .alt r1 r2 => r1.size + r2.size + 1
  | .star r1 => r1.size + 1

def matchFuel (r : Regex) (s : List Char) : Nat :=
  (s.length + 1) * (r.size + 1) + 1

/-- Length of the match a leftmost-first engine finds at this position, if any. -/
def firstMatchLen (r : Regex) (prev : Option Char) (s : List Char) : Option Nat :=
  match rmatch (matchFuel r s) r prev s with
  | [] => none
  | pr :: _ => some (s.length - pr.2.length)

/-- Global replacement: repeatedly take the leftmost-first match and rewrite it
with `f`; positions with no match are copied; an empty match inserts the
replacement and copies one character (Go's non-overlapping scan). -/
def replaceAllAux (r : Regex) (f : String → String) :
    Nat → Option Char → List Char → List Char
  | 0, _, cs => cs
  | fuel + 1, prev, cs =>
    match firstMatchLen r prev cs with
    | some 0 =>
      match cs with
      | [] => (f "").data
      | c :: rest => (f "").data ++ c :: replaceAllAux r f fuel (some c) rest
    | some (len + 1) =>
      let matched := cs.take (len + 1)
      (f (String.mk matched)).data ++
        replaceAllAux r f fuel matched.getLast? (cs.drop (len + 1))
    | none =>
      match cs with
      | [] => []
      | c :: rest => c :: replaceAllAux r f fuel (some c) rest

/-- Models Regexp.ReplaceAllStringFunc. -/
def Regex.replaceAllWith (r : Regex) (f : String → String) (s : String) : String :=
  String.mk (replaceAllAux r f (s.length + 1) none s.data)

/-- Models Regexp.ReplaceAllString (the replacement strings used by the
crawler contain no `$` expansions). -/
def Regex.replaceAllString (r : Regex) (repl : String) (s : String) : String :=
  r.replaceAllWith (fun _ => repl) s

def matchFromAux (r : Regex) (prev : Option Char) (cs : List Char) : Bool :=
  (firstMatchLen r prev cs).isSome ||
    match cs with
    | [] => false
    | c :: rest => matchFromAux r (some c) rest

/-- Models Regexp.MatchString: some position of the input has a match. -/
def Regex.matchString (r : Regex) (s : String) : Bool :=
  matchFromAux r none s.data

/-! ### Regex construction helpers -/

def Regex.chr (c : Char) : Regex := .cls [(c, c)] false

/-- A case-insensitive literal character (for patterns under a `(?i)` flag). -/
def Regex.chrCI (c : Char) : Regex := .cls [(c, c)] true

def Regex.seq (rs : List Regex) : Regex := rs.foldr .concat .eps

def Regex.strLit (s : String) : Regex := .seq (s.data.map .chr)

def Regex.strLitCI (s : String) : Regex := .seq (s.data.map .chrCI)

def Regex.opt (r : Regex) : Regex := .alt r .eps

def Regex.plus (r : Regex) : Regex := .concat r (.star r)

def Regex.repExact (r : Regex) : Nat → Regex
  | 0 => .eps
  | n + 1 => .concat r (Regex.repExact r n)

/-- Greedy `{0,k}` (prefers taking another iteration). -/
def Regex.repUpTo (r : Regex) : Nat → Regex
  | 0 => .eps
  | n + 1 => .alt (.concat r (Regex.repUpTo r n)) .eps

/-- Greedy `{lo,hi}`. -/
def Regex.repRange (r : Regex) (lo hi : Nat) : Regex :=
  .concat (r.repExact lo) (r.repUpTo (hi - lo))

/-- Greedy `{lo,}`. -/
def Regex.repAtLeast (r : Regex) (lo : Nat) : Regex :=
  .concat (r.repExact lo) (.star r)

/-- `\d` -/
def Regex.digit : Regex := .cls [('0', '9')] false

/-- `\s` in Go regexp: tab, newline, form feed, carriage return, space. -/
def Regex.space : Regex :=
  .cls [('\t', '\t'), ('\n', '\n'), ('\x0c', '\x0c'), ('\r', '\r'), (' ', ' ')] false

/-! ## The text normalizer pattern catalogue (text_utils.go)

Each definition translates one entry of `DefaultTextPatterns`; the doc comment
quotes the Go pattern. -/

/-- emailAddress: `\b(?i)[A-Za-z0-9._%+-]+@[A-Za-z0-9.-]+\.[A-Za-z]{2,}\b` -/
def emailAddressPattern : Regex :=
  .seq [.wordB,
    .plus (.cls [('A', 'Z'), ('a', 'z'), ('0', '9'), ('.', '.'), ('_', '_'),
      ('%', '%'), ('+', '+'), ('-', '-')] true),
    .chr '@',
    .plus (.cls [('A', 'Z'), ('a', 'z'), ('0', '9'), ('.', '.'), ('-', '-')] true),
    .chr '.',
    .repAtLeast (.cls [('A', 'Z'), ('a', 'z')] true) 2,
    .wordB]

/-- One IPv4 octet: `(?:25[0-5]|2[0-4]\d|1?\d?\d)` -/
def ipOctetPattern : Regex :=
  .alt (.seq [.chr '2', .chr '5', .cls [('0', '5')] false])
    (.alt (.seq [.chr '2', .cls [('0', '4')] false, .digit])
      (.seq [.opt (.chr '1'), .opt .digit, .digit]))

/-- ipAddress: `\b(?:25[0-5]|2[0-4]\d|1?\d?\d)(?:\.(?:25[0-5]|2[0-4]\d|1?\d?\d)){3}\b` -/
def ipAddressPattern : Regex :=
  .seq [.wordB, ipOctetPattern,
    .repExact (.seq [.chr '.', ipOctetPattern]) 3, .wordB]

def hexDigitCls : Regex := .cls [('0', '9'), ('a', 'f'), ('A', 'F')] false

/-- uuid: `\b[0-9a-fA-F]{8}-[0-9a-fA-F]{4}-[0-9a-fA-F]{4}-[0-9a-fA-F]{4}-[0-9a-fA-F]{12}\b` -/
def uuidPattern : Regex :=
  .seq [.wordB, .repExact hexDigitCls 8, .chr '-', .repExact hexDigitCls 4,
    .chr '-', .repExact hexDigitCls 4, .chr '-', .repExact hexDigitCls 4,
    .chr '-', .repExact hexDigitCls 12, .wordB]

/-- relativeDates: `\b(?:[0-9]{1,2}\s(?:days?|weeks?|months?|years?)\s(?:ago|from\s+now))\b` -/
def relativeDatesPattern : Regex :=
  .seq [.wordB, .repRange .digit 1 2, .space,
    .alt (.seq [.strLit "day", .opt (.chr 's')])
      (.alt (.seq [.strLit "week", .opt (.chr 's')])
        (.alt (.seq [.strLit "month", .opt (.chr 's')])
          (.seq [.strLit "year", .opt (.chr 's')]))),
    .space,
    .alt (.strLit "ago") (.seq [.strLit "from", .plus .space, .strLit "now"]),
    .wordB]

/-- priceAmounts: `[\$€£¥]\s*\d+(?:\.\d{1,2})?\b` (no leading word boundary) -/
def priceAmountsPattern : Regex :=
  .seq [.cls [('$', '$'), ('€', '€'), ('£', '£'), ('¥', '¥')] false,
    .star .space, .plus .digit,
    .opt (.seq [.chr '.', .repRange .digit 1 2]), .wordB]

/-- phoneNumbers: `\b\+?\d{7,15}\b` -/
def phoneNumbersPattern : Regex :=
  .seq [.wordB, .opt (.chr '+'), .repRange .digit 7 15, .wordB]

/-- ssnNumbers: `\b\d{3}-\d{2}-\d{4}\b` -/
def ssnNumbersPattern : Regex :=
  .seq [.wordB, .repExact .digit 3, .chr '-', .repExact .digit 2, .chr '-',
    .repExact .digit 4, .wordB]

/-- timestampRegex:
`\b(?:(?:[0-9]{4}-[0-9]{2}-[0-9]{2})|(?:(?:[0-9]{2}\/){2}[0-9]{4}))\s(?:[0-9]{2}:[0-9]{2}:[0-9]{2})\b` -/
def timestampPattern : Regex :=
  .seq [.wordB,
    .alt (.seq [.repExact .digit 4, .chr '-', .repExact .digit 2, .chr '-',
        .repExact .digit 2])
      (.seq [.repExact (.seq [.repExact .digit 2, .chr '/']) 2,
        .repExact .digit 4]),
    .space, .repExact .digit 2, .chr ':', .repExact .digit 2, .chr ':',
    .repExact .digit 2, .wordB]

/-- text_utils.go:10-27: the `DefaultTextPatterns` list, in source order. -/
def DefaultTextPatterns : List Regex :=
  [emailAddressPattern, ipAddressPattern, uuidPattern, relativeDatesPattern,
   priceAmountsPattern, phoneNumbersPattern, ssnNumbersPattern, timestampPattern]

/-- Modelled from the spec: `dateTimePatterns` (appended after the defaults in
`NewTextNormalizer`; its source file is not under src/). The spec says only
that "an implementation may append further date/time patterns" without listing
them, so the model takes the list to be empty. -/
def dateTimePatterns : List Regex := []

/-- text_utils.go:39-53: the compiled pattern list of a `TextNormalizer`
(defaults followed by the appended date/time patterns). Pattern compilation
cannot fail for the fixed catalogue, so construction is total. -/
def TextNormalizer.patterns : List Regex :=
  DefaultTextPatterns ++ dateTimePatterns

/-- text_utils.go:56-62: `TextNormalizer.Apply` replaces every match of every
pattern, in order, with the empty string. -/
def TextNormalizer.Apply (text : String) : String :=
  TextNormalizer.patterns.foldl (fun t p => p.replaceAllString "" t) text

/-! ## Models of html.UnescapeString and url.QueryUnescape -/

def namedEntities : List (String × Char) :=
  [("amp", '&'), ("lt", '<'), ("gt", '>'), ("quot", '"'), ("apos", '\''),
   ("nbsp", ' ')]

def tryNamedEntity (cs : List Char) : Option (Char × List Char) :=
  (namedEntities.filterMap fun p =>
    if (p.1.data ++ [';']).isPrefixOf cs then
      some (p.2, cs.drop (p.1.data.length + 1))
    else none).head?

/-- Models html.UnescapeString on the entity forms that occur in this
development: numeric entities (decimal and hexadecimal) and the basic named
entities, each terminated by a semicolon; an ampersand that does not start a
recognized entity is kept verbatim. (Go additionally recognizes the long HTML5
named-entity table and some legacy unterminated forms; none of those occur in
the strings reasoned about here.) -/
def htmlUnescapeAux : Nat → List Char → List Char
  | 0, cs => cs
  | _ + 1, [] => []
  | fuel + 1, '&' :: rest =>
    match rest with
    | '#' :: t =>
      match t with
      | c :: t2 =>
        if c = 'x' || c = 'X' then
          let digs := t2.takeWhile isHexDigitChar
          let r2 := t2.dropWhile isHexDigitChar
          match digs, r2 with
          | _ :: _, ';' :: r3 =>
            Char.ofNat (hexValOfDigits digs) :: htmlUnescapeAux fuel r3
          | _, _ => '&' :: htmlUnescapeAux fuel rest
        else
          let digs := t.takeWhile isDigitChar
          let r2 := t.dropWhile isDigitChar
          match digs, r2 with
          | _ :: _, ';' :: r3 =>
            Char.ofNat (decValOfDigits digs) :: htmlUnescapeAux fuel r3
          | _, _ => '&' :: htmlUnescapeAux fuel rest
      | [] => '&' :: htmlUnescapeAux fuel rest
    | _ =>
      match tryNamedEntity rest with
      | some (c, r2) => c :: htmlUnescapeAux fuel r2
      | none => '&' :: htmlUnescapeAux fuel rest
  | fuel + 1, c :: rest => c :: htmlUnescapeAux fuel rest

def htmlUnescapeString (s : String) : String :=
  String.mk (htmlUnescapeAux (s.length + 1) s.data)

/-- Models url.QueryUnescape: `%` must be followed by two hex digits and
decodes to that code, `+` decodes to a space; a malformed escape makes the
whole conversion fail (`none` models Go's non-nil error). -/
def queryUnescapeAux : List Char → Option (List Char)
  | [] => some []
  | '%' :: c1 :: c2 :: rest =>
    if isHexDigitChar c1 && isHexDigitChar c2 then
      (queryUnescapeAux rest).map
        (Char.ofNat (16 * hexDigitVal c1 + hexDigitVal c2) :: ·)
    else none
  | '%' :: _ => none
  | '+' :: rest => (queryUnescapeAux rest).map (' ' :: ·)
  | c :: rest => (queryUnescapeAux rest).map (c :: ·)

def queryUnescape (s : String) : Option String :=
  (queryUnescapeAux s.data).map String.mk

/-! ## The document pre/post-processor (normalizer.go:61-108) -/

/-- normalizer.go:16: `whiteSpacesRegex` compiled from the pattern `[\r\n]+|\s+`. -/
def whiteSpacesRegex : Regex :=
  .alt (.plus (.cls [('\r', '\r'), ('\n', '\n')] false)) (.plus .space)

/-- normalizer.go:102: the package-level `pattern` variable, compiled from
`\\x[0-9a-fA-F]{2}` (a literal backslash, `x`, and two hex digits). -/
def hexEscapePattern : Regex :=
  .seq [.chr '\\', .chr 'x', hexDigitCls, hexDigitCls]

/-- normalizer.go:88-99: `replaceHexEscapeSequence` strips the leading `\x`,
parses the remainder as a 32-bit hexadecimal integer, and renders the HTML
numeric entity; on a parse error the original match is returned. -/
def replaceHexEscapeSequence (m : String) : String :=
  let code := goTrimPrefixOf m "\\x"
  match goParseIntHex32 code with
  | none => m
  | some value => "&#x" ++ intToHexLower value ++ ";"

/-- normalizer.go:104-108: rewrite every match of the hex-escape pattern. -/
def convertHexEscapeSequencesToEntities (input : String) : String :=
  hexEscapePattern.replaceAllWith replaceHexEscapeSequence input

/-- normalizer.go:67-86: the document pre/post-processor: lowercase, convert
hex escape sequences to entities, HTML-entity decode, URL-query decode
(keeping the pre-decode string on failure), collapse whitespace, trim. -/
def normalizeDocument (text : String) : String :=
  let lowercased := goToLower text
  let converted := convertHexEscapeSequencesToEntities lowercased
  let unescaped := htmlUnescapeString converted
  let urlDecoded :=
    match queryUnescape unescaped with
    | some d => d
    | none => unescaped
  let normalized := whiteSpacesRegex.replaceAllString " " urlDecoded
  goTrim normalized [' ', '\r', '\n', '\t']

/-! ## An executable model of HTML parse / serialize
(golang.org/x/net/html, as used through goquery)

The parser is a model of x/net/html.Parse restricted to the well-formed
documents that arise in this development: text, properly nested elements with
optional attributes, void elements, and the implied `<html><head></head><body>`
scaffolding that the Go parser inserts around bare content. The serializer
models html.Render (reference-escaping text and attribute values, rendering
void elements self-closed). -/

inductive HNode where
  | text (s : String) : HNode
  | elem (tag : String) (attrs : List (String × String)) (children : List HNode) : HNode

def voidElements : List String :=
  ["area", "base", "br", "col", "embed", "hr", "img", "input", "link", "meta",
   "param", "source", "track", "wbr"]

def isTagNameChar (c : Char) : Bool :=
  ('a' ≤ c && c ≤ 'z') || ('A' ≤ c && c ≤ 'Z') || ('0' ≤ c && c ≤ '9')

def isAttrNameChar (c : Char) : Bool :=
  !(c.isWhitespace || c = '=' || c = '>' || c = '/')

/-- Parse the attribute list of an open tag, up to and including the closing
`>`; returns the attributes, the rest of the input, and whether the tag was
self-closing. -/
def parseAttrsAux : Nat → List Char → List (String × String) × List Char × Bool
  | 0, cs => ([], cs, false)
  | _ + 1, [] => ([], [], false)
  | fuel + 1, c :: rest =>
    if c = '>' then ([], rest, false)
    else if c = '/' then
      match rest with
      | '>' :: r2 => ([], r2, true)
      | _ => parseAttrsAux fuel rest
    else if c.isWhitespace then parseAttrsAux fuel rest
    else
      let nm := (c :: rest).takeWhile isAttrNameChar
      let r1 := (c :: rest).dropWhile isAttrNameChar
      if nm.isEmpty then parseAttrsAux fuel rest
      else
        let name := String.mk (nm.map Char.toLower)
        match r1 with
        | '=' :: '"' :: r2 =>
          let v := r2.takeWhile (· ≠ '"')
          let r3 := r2.dropWhile (· ≠ '"')
          let r4 := match r3 with | '"' :: r5 => r5 | _ => r3
          let res := parseAttrsAux fuel r4
          ((name, htmlUnescapeString (String.mk v)) :: res.1, res.2.1, res.2.2)
        | '=' :: r2 =>
          let v := r2.takeWhile fun c => !(c.isWhitespace || c = '>')
          let r3 := r2.dropWhile fun c => !(c.isWhitespace || c = '>')
          let res := parseAttrsAux fuel r3
          ((name, htmlUnescapeString (String.mk v)) :: res.1, res.2.1, res.2.2)
        | _ =>
          let res := parseAttrsAux fuel r1
          ((name, "") :: res.1, res.2.1, res.2.2)

/-- Consume a closing tag `</...>` if one is next. -/
def consumeClosingTag (cs : List Char) : List Char :=
  match cs with
  | '<' :: '/' :: rest =>
    let r1 := rest.dropWhile (· ≠ '>')
    match r1 with
    | '>' :: r2 => r2
    | _ => r1
  | _ => cs

/-- Parse a sibling list of nodes; stops before a closing tag or at the end. -/
def parseNodesAux : Nat → List Char → List HNode × List Char
  | 0, cs => ([], cs)
  | _ + 1, [] => ([], [])
  | _ + 1, '<' :: '/' :: rest => ([], '<' :: '/' :: rest)
  | fuel + 1, '<' :: rest =>
    let nm := rest.takeWhile isTagNameChar
    let r1 := rest.dropWhile isTagNameChar
    let tag := String.mk (nm.map Char.toLower)
    let resA := parseAttrsAux (fuel + 1) r1
    let attrs := resA.1
    let r2 := resA.2.1
    let selfClosed := resA.2.2
    if selfClosed || voidElements.contains tag then
      let res := parseNodesAux fuel r2
      (HNode.elem tag attrs [] :: res.1, res.2)
    else
      let resC := parseNodesAux fuel r2
      let r4 := consumeClosingTag resC.2
      let res := parseNodesAux fuel r4
      (HNode.elem tag attrs resC.1 :: res.1, res.2)
  | fuel + 1, c :: rest =>
    let txt := (c :: rest).takeWhile (· ≠ '<')
    let r1 := (c :: rest).dropWhile (· ≠ '<')
    let res := parseNodesAux fuel r1
    (HNode.text (htmlUnescapeString (String.mk txt)) :: res.1, res.2)

def isElemWithTag (n : HNode) (t : String) : Bool :=
  match n with
  | .elem tag _ _ => tag = t
  | _ => false

/-- Parse a whole document, producing the root `html` element with the
`head`/`body` scaffolding the Go parser guarantees. -/
def parseHTMLDocument (s : String) : HNode :=
  let ns := (parseNodesAux (2 * s.length + 8) s.data).1
  match ns with
  | [HNode.elem "html" attrs children] =>
    match children with
    | [h, b] =>
      if isElemWithTag h "head" && isElemWithTag b "body" then
        HNode.elem "html" attrs children
      else
        HNode.elem "html" attrs [HNode.elem "head" [] [], HNode.elem "body" [] children]
    | _ =>
      HNode.elem "html" attrs [HNode.elem "head" [] [], HNode.elem "body" [] children]
  | _ =>
    HNode.elem "html" [] [HNode.elem "head" [] [], HNode.elem "body" [] ns]

def escapeHTMLChar (c : Char) : String :=
  match c with
  | '&' => "&amp;"
  | '\'' => "&#39;"
  | '<' => "&lt;"
  | '>' => "&gt;"
  | '"' => "&#34;"
  | c => String.mk [c]

def escapeHTMLStr (s : String) : String :=
  s.data.foldl (fun acc c => acc ++ escapeHTMLChar c) ""

def renderAttrs (attrs : List (String × String)) : String :=
  attrs.foldl (fun acc p => acc ++ " " ++ p.1 ++ "=\x22" ++ escapeHTMLStr p.2 ++ "\x22") ""

mutual

/-- Models html.Render on one node. -/
def renderNode : HNode → String
  | .text s => escapeHTMLStr s
  | .elem t attrs cs =>
    if voidElements.contains t then "<" ++ t ++ renderAttrs attrs ++ "/>"
    else "<" ++ t ++ renderAttrs attrs ++ ">" ++ renderNodes cs ++ "</" ++ t ++ ">"

def renderNodes : List HNode → String
  | [] => ""
  | n :: ns => renderNode n ++ renderNodes ns

end

/-- normalizer.go:116: the goquery selector `h1, h2, h3, h4, h5, h6, p, span,
div, td, th, li, a`. -/
def stripTargetTags : List String :=
  ["h1", "h2", "h3", "h4", "h5", "h6", "p", "span", "div", "td", "th", "li", "a"]

def isTextNode : HNode → Bool
  | .text _ => true
  | _ => false

mutual

/-- normalizer.go:127-139 (`removeTextNodesFromSelection`) applied over the
matched elements: drop the direct text-node children of every element whose
tag is in `stripTargetTags`, recursively. -/
def stripNode : HNode → HNode
  | .text s => .text s
  | .elem t attrs cs => .elem t attrs (stripChildren (stripTargetTags.contains t) cs)

def stripChildren : Bool → List HNode → List HNode
  | _, [] => []
  | dropText, c :: rest =>
    if dropText && isTextNode c then stripChildren dropText rest
    else stripNode c :: stripChildren dropText rest

end

/-- normalizer.go:110-125: parse the content as HTML, remove direct text nodes
of the structural elements, and serialize back. The Go error returns (from
goquery parsing and rendering) cannot fire for in-memory strings, so the
embedding is total. -/
def stripTextContent (content : String) : String :=
  renderNode (stripNode (parseHTMLDocument content))

/-- Modelled from the spec: `DOMNormalizer.Apply` (the normalizer constructed
by `NewDOMNormalizer`; its source file is not under src/). Spec §4.2: "Parse
the input as HTML, then for each element matching a tag in {h1..h6, p, span,
div, td, th, li, a} remove all direct text-node children (descendant elements
remain ...). Serialize back to HTML." -/
def DOMNormalizer.Apply (s : String) : String :=
  renderNode (stripNode (parseHTMLDocument s))

/-- normalizer.go:42-59: the full pipeline `Normalizer.Apply`: document
pre/post-process, DOM normalizer, text-content stripping, text normalizer,
document pre/post-process. -/
def Normalizer.Apply (text : String) : String :=
  let first := normalizeDocument text
  let firstpass := DOMNormalizer.Apply first
  let secondpass := stripTextContent firstpass
  let thirdpass := TextNormalizer.Apply secondpass
  let fourthpass := normalizeDocument thirdpass
  fourthpass

/-! ## The pipeline as a stage sequence (for the ordering claim) -/

inductive NormStage where
  | prePostProcess : NormStage
  | domNormalize : NormStage
  | stripText : NormStage
  | textNormalize : NormStage
deriving DecidableEq

def normStageFn : NormStage → String → String
  | .prePostProcess => normalizeDocument
  | .domNormalize => DOMNormalizer.Apply
  | .stripText => stripTextContent
  | .textNormalize => TextNormalizer.Apply

def runNormStages (stages : List NormStage) (s : String) : String :=
  stages.foldl (fun acc st => normStageFn st acc) s

/-- The stage sequence `Normalizer.Apply` executes, in source order
(normalizer.go:42-59). -/
def normalizerApplyStages : List NormStage :=
  [.prePostProcess, .domNormalize, .stripText, .textNormalize, .prePostProcess]

/-- Modelled from the spec (§4.4): the stage sequence the spec claims for
`Normalizer.Apply`: "pre/post-process → DOM normalize → pre/post-process →
text normalize → pre/post-process". -/
def specClaimedStages : List NormStage :=
  [.prePostProcess, .domNormalize, .prePostProcess, .textNormalize, .prePostProcess]

/-! ## The crawl engine (crawler.go)

The loop is embedded as a deterministic interpreter. All browser-facing calls
(page hash, origin reconstruction, action execution, page-state construction,
navigation discovery, graph insertion) are resolved by an explicit environment
value per iteration; the queue, the unique-action set and the crawl graph are
the crawler-owned state and are modelled concretely. The diagnostics writer is
`nil` (diagnostics disabled, the default), so its branches are omitted. -/

deriving instance DecidableEq for Except

namespace Katana

inductive ActionType where
  | loadURL : ActionType
  | leftClick : ActionType
  | leftClickDown : ActionType
  | fillForm : ActionType
deriving DecidableEq

def ActionType.tag : ActionType → String
  | .loadURL => "load_url"
  | .leftClick => "left_click"
  | .leftClickDown => "left_click_down"
  | .fillForm => "fill_form"

/-- The element descriptor fields consulted by the crawl loop
(types.HTMLElement: text content, attributes, xpath). -/
structure HTMLElement where
  textContent : String
  attributes : List (String × String)
  xpath : String
deriving DecidableEq

/-- Go map indexing with the zero value for missing keys
(`element.Attributes["href"]`). -/
def attrLookup (attrs : List (String × String)) (key : String) : String :=
  match attrs.find? (fun p => p.1 = key) with
  | some p => p.2
  | none => ""

structure Action where
  type : ActionType
  input : String
  element : Option HTMLElement
  depth : Nat
  originID : String
deriving DecidableEq

/-- Modelled from the spec: `types.Action.Hash` (its source file is not under
src/). Spec §3: "An Action's Hash() is a stable digest of (type,
normalized-input-or-selector, originID) used for dedup"; the model uses an
injective string encoding as the digest. -/
def Action.Hash (a : Action) : String :=
  let selectorOrInput :=
    match a.type, a.element with
    | .loadURL, _ => a.input
    | _, some el => el.xpath
    | _, none => a.input
  a.type.tag ++ "|" ++ selectorOrInput ++ "|" ++ a.originID

structure PageState where
  uniqueID : String
  url : String
  depth : Nat
  originID : String
deriving DecidableEq

/-- Modelled from the spec: the `EMPTY_PAGE` sentinel fingerprint
(`emptyPageHash`, defined in a file not under src/): "the sentinel EMPTY_PAGE
identifies a blank initial state". -/
def emptyPageHash : String := "EMPTY_PAGE"

/-- crawler.go:483: the logout regex
`(?i)(log[\s-]?out|sign[\s-]?out|signout|deconnexion|cerrar[\s-]?sesion|sair|abmelden|uitloggen|ausloggen|exit|disconnect|terminate|end[\s-]?session|salir|desconectar|afmelden|wyloguj|logout|sign[\s-]?off)` -/
def logoutPattern : Regex :=
  let sep := Regex.opt (.cls [('\t', '\t'), ('\n', '\n'), ('\x0c', '\x0c'),
    ('\r', '\r'), (' ', ' '), ('-', '-')] false)
  let alts : List Regex :=
    [.seq [.strLitCI "log", sep, .strLitCI "out"],
     .seq [.strLitCI "sign", sep, .strLitCI "out"],
     .strLitCI "signout",
     .strLitCI "deconnexion",
     .seq [.strLitCI "cerrar", sep, .strLitCI "sesion"],
     .strLitCI "sair",
     .strLitCI "abmelden",
     .strLitCI "uitloggen",
     .strLitCI "ausloggen",
     .strLitCI "exit",
     .strLitCI "disconnect",
     .strLitCI "terminate",
     .seq [.strLitCI "end", sep, .strLitCI "session"],
     .strLitCI "salir",
     .strLitCI "desconectar",
     .strLitCI "afmelden",
     .strLitCI "wyloguj",
     .strLitCI "logout",
     .seq [.strLitCI "sign", sep, .strLitCI "off"]]
  match alts with
  | [] => .eps
  | r :: rest => rest.foldl .alt r

/-- crawler.go:485-488: `isLogoutPage`. -/
def isLogoutPage (element : HTMLElement) : Bool :=
  logoutPattern.matchString element.textContent ||
    logoutPattern.matchString (attrLookup element.attributes "href")

/-- The error kinds the crawl loop distinguishes (crawler.go:242-287): the
sentinel `ErrNoCrawlingAction`, the classified site-error kinds, and `other`
for every remaining Go error (pool failure, context cancellation, graph
corruption, ...). -/
inductive GoError where
  | noCrawlingAction : GoError
  | elementNotVisible : GoError
  | noPointerEvents : GoError
  | invisibleShape : GoError
  | navigationError : GoError
  | noNavigationPossible : GoError
  | maxSleepCount : GoError
  | other (msg : String) : GoError
deriving DecidableEq

/-- The crawler options consulted by the loop (crawler.go:39-63). Go stores
the numeric limits as `int` and guards them with `> 0`; values `≤ 0` mean
"unbounded", so `Nat` preserves the semantics. -/
structure CrawlOptions where
  maxDepth : Nat
  maxFailureCount : Nat
  /-- whether MaxCrawlDuration > 0 (only then is the timeout channel armed) -/
  maxCrawlDurationSet : Bool
  scopeValidator : Option (String → Bool)

/-- Results of the external calls one `crawlFn` invocation makes, in the order
the code makes them. -/
structure CrawlFnEnv where
  /-- getPageHash(page) -/
  pageHash : Except GoError String
  /-- navigateBackToStateOrigin(action, page, currentPageHash) -/
  navigateBack : Except GoError String
  /-- executeCrawlStateAction(action, page) -/
  execute : Except GoError Unit
  /-- newPageState(page, action) -/
  buildPageState : Except GoError PageState
  /-- page.FindNavigations() -/
  findNavigations : Except GoError (List Action)
  /-- crawlGraph.AddPageState(*pageState): the graph container's source is not
  under src/; spec §3 describes it as append-only, and a failure result models
  "graph corruption" surfaced by it -/
  addPageState : Except GoError Unit
deriving DecidableEq

/-- Results of the external calls of one loop iteration. -/
structure CrawlIterEnv where
  /-- whether the crawl-duration timer has fired at this iteration head -/
  timeoutFired : Bool
  /-- launcher.GetPageFromPool() -/
  getPage : Except GoError Unit
  fnEnv : CrawlFnEnv
deriving DecidableEq

/-- The crawler-owned state: FIFO action queue (Get at the head, Offer at the
tail), the process-wide unique-action hash set, and the crawl graph's page
states. -/
structure CrawlState where
  crawlQueue : List Action
  uniqueActions : List String
  crawlGraph : List PageState
deriving DecidableEq

/-- Observable events of a crawl, used to state temporal claims. -/
inductive CrawlEvent where
  | dequeued (a : Action) : CrawlEvent
  | droppedByDepth (a : Action) : CrawlEvent
  /-- the action was handed to `crawlFn` (reconstruction/execution begins) -/
  | processed (a : Action) : CrawlEvent
  /-- the navigation was offered to the queue; `dedupHash` is the hash recorded
  in `uniqueActions` (computed before `OriginID` is overwritten) -/
  | offered (a : Action) (dedupHash : String) : CrawlEvent
  | stateAdded (ps : PageState) : CrawlEvent
deriving DecidableEq

/-- crawler.go:382-404: the navigation loop body — dedup by hash, drop logout
elements, set the origin, offer to the queue. -/
def offerNavigation (pageStateID : String) (acc : CrawlState × List CrawlEvent)
    (nav : Action) : CrawlState × List CrawlEvent :=
  let st := acc.1
  let evs := acc.2
  let actionHash := nav.Hash
  if st.uniqueActions.contains actionHash then (st, evs)
  else
    let st := { st with uniqueActions := st.uniqueActions ++ [actionHash] }
    let isLogout :=
      match nav.element with
      | some el => isLogoutPage el
      | none => false
    if isLogout then (st, evs)
    else
      let nav := { nav with originID := pageStateID }
      ({ st with crawlQueue := st.crawlQueue ++ [nav] },
        evs ++ [.offered nav actionHash])

/-- crawler.go:296-418: `Crawler.crawlFn` — align with the origin state,
execute the action, build the page state, apply the scope check, harvest and
offer navigations, record the page state in the graph. Returns the Go result
together with the updated crawler state and the events. -/
def crawlFn (opts : CrawlOptions) (env : CrawlFnEnv) (action : Action)
    (st : CrawlState) : Except GoError Unit × CrawlState × List CrawlEvent :=
  match env.pageHash with
  | .error e => (.error e, st, [])
  | .ok currentPageHash0 =>
    let navRes : Except GoError String :=
      if action.originID ≠ "" && action.originID ≠ currentPageHash0 then
        env.navigateBack
      else .ok currentPageHash0
    match navRes with
    | .error e => (.error e, st, [])
    | .ok currentPageHash =>
      match env.execute with
      | .error e => (.error e, st, [])
      | .ok _ =>
        match env.buildPageState with
        | .error e => (.error e, st, [])
        | .ok ps0 =>
          let pageState := { ps0 with originID := currentPageHash }
          let outOfScope :=
            match opts.scopeValidator with
            | some validate => !(validate pageState.url)
            | none => false
          if outOfScope then
            if st.crawlQueue.length = 0 then (.error .noCrawlingAction, st, [])
            else (.ok (), st, [])
          else
            match env.findNavigations with
            | .error e => (.error e, st, [])
            | .ok navigations =>
              let offered :=
                navigations.foldl (offerNavigation pageState.uniqueID) (st, [])
              let st1 := offered.1
              let evs := offered.2
              match env.addPageState with
              | .error e => (.error e, st1, evs)
              | .ok _ =>
                let st2 := { st1 with crawlGraph := st1.crawlGraph ++ [pageState] }
                let evs := evs ++ [.stateAdded pageState]
                if navigations.length = 0 && st2.crawlQueue.length = 0 then
                  (.error .noCrawlingAction, st2, evs)
                else (.ok (), st2, evs)

/-- How the loop body reacts to a `crawlFn` result (crawler.go:242-289). -/
inductive LoopDecision where
  | returnNil : LoopDecision
  | returnErr (e : GoError) : LoopDecision
  | continueFail : LoopDecision
  | resetOk : LoopDecision
deriving DecidableEq

/-- crawler.go:242-289: the error-classification chain of the loop body. Every
branch of the chain — `ErrElementNotVisible`, the rod no-pointer-events /
invisible-shape / navigation errors, `ErrNoNavigationPossible`, the max-sleep
error, and the final site-specific default — increments the consecutive
failure counter and continues; only the `ErrNoCrawlingAction` sentinel returns
(with nil), and a nil result resets the counter. -/
def classifyCrawlResult (res : Except GoError Unit) : LoopDecision :=
  match res with
  | .ok _ => .resetOk
  | .error e =>
    if e = .noCrawlingAction then .returnNil
    else
      match e with
      | .elementNotVisible => .continueFail
      | .noPointerEvents => .continueFail
      | .invisibleShape => .continueFail
      | .navigationError => .continueFail
      | .noNavigationPossible => .continueFail
      | .maxSleepCount => .continueFail
      | _ => .continueFail

/-- Result of one iteration of the crawl loop. -/
inductive StepResult where
  /-- the loop returns (`none` is a nil return, `some e` surfaces `e`) -/
  | halt (res : Option GoError) (st : CrawlState) (evs : List CrawlEvent) : StepResult
  | next (st : CrawlState) (failures : Nat) (evs : List CrawlEvent) : StepResult
deriving DecidableEq

/-- One iteration of the loop body of `Crawler.Crawl` (crawler.go:202-291):
timeout check, failure-budget check, dequeue (empty queue returns nil), depth
guard, page acquisition (failure returns the error), `crawlFn`, and the
classification of its result. -/
def crawlStep (opts : CrawlOptions) (env : CrawlIterEnv) (st : CrawlState)
    (failures : Nat) : StepResult :=
  if opts.maxCrawlDurationSet && env.timeoutFired then .halt none st []
  else if 0 < opts.maxFailureCount && opts.maxFailureCount ≤ failures then
    .halt none st []
  else
    match st.crawlQueue with
    | [] => .halt none st []
    | action :: pending =>
      let st := { st with crawlQueue := pending }
      if 0 < opts.maxDepth && opts.maxDepth < action.depth then
        .next st failures [.dequeued action, .droppedByDepth action]
      else
        match env.getPage with
        | .error e => .halt (some e) st [.dequeued action]
        | .ok _ =>
          let res := crawlFn opts env.fnEnv action st
          let evs := .dequeued action :: .processed action :: res.2.2
          match classifyCrawlResult res.1 with
          | .returnNil => .halt none res.2.1 evs
          | .returnErr e => .halt (some e) res.2.1 evs
          | .continueFail => .next res.2.1 (failures + 1) evs
          | .resetOk => .next res.2.1 0 evs

/-- The state a step leaves behind (for stating invariants). -/
def StepResult.outState : StepResult → CrawlState
  | .halt _ st _ => st
  | .next st _ _ => st

/-- The events a step emits (for stating invariants). -/
def StepResult.events : StepResult → List CrawlEvent
  | .halt _ _ evs => evs
  | .next _ _ evs => evs

/-- Outcome of a crawl run. -/
inductive CrawlOutcome where
  | finished (res : Option GoError) : CrawlOutcome
  /-- the supplied environment trace ended before the loop returned -/
  | outOfFuel : CrawlOutcome
deriving DecidableEq

structure CrawlRun where
  outcome : CrawlOutcome
  finalState : CrawlState
  trace : List CrawlEvent
deriving DecidableEq

/-- The loop of `Crawler.Crawl`, iterated over the environment trace. -/
def crawlLoop (opts : CrawlOptions) :
    List CrawlIterEnv → CrawlState → Nat → CrawlRun
  | [], st, _ => { outcome := .outOfFuel, finalState := st, trace := [] }
  | env :: rest, st, failures =>
    match crawlStep opts env st failures with
    | .halt res st1 evs => { outcome := .finished res, finalState := st1, trace := evs }
    | .next st1 failures1 evs =>
      let r := crawlLoop opts rest st1 failures1
      { r with trace := evs ++ r.trace }

/-- crawler.go:146-200: `Crawler.Crawl` — seed the queue with the LoadURL
action, install the blank EMPTY_PAGE state in a fresh graph (the fresh-graph
root insertion cannot fail), and run the loop with a zero failure counter.
`uniqueActions` is the crawler-level set, empty for a fresh crawler. -/
def Crawl (opts : CrawlOptions) (URL : String) (envs : List CrawlIterEnv) :
    CrawlRun :=
  let seed : Action :=
    { type := .loadURL, input := URL, element := none, depth := 0,
      originID := emptyPageHash }
  let blankState : PageState :=
    { uniqueID := emptyPageHash, url := "about:blank", depth := 0, originID := "" }
  let st : CrawlState :=
    { crawlQueue := [seed],
      uniqueActions := [],
      crawlGraph := [blankState] }
  crawlLoop opts envs st 0

/-- The actions handed to `crawlFn` during a run. -/
def processedActions (trace : List CrawlEvent) : List Action :=
  trace.filterMap fun e =>
    match e with
    | .processed a => some a
    | _ => none

/-- The dedup hashes recorded at the offer events of a run. -/
def offeredHashes (trace : List CrawlEvent) : List String :=
  trace.filterMap fun e =>
    match e with
    | .offered _ h => some h
    | _ => none
/-! ## Form filling (`applyFormSuggestions`, form-fill file of the crawler
package)

The live browser element is modelled by the two observations the function
makes of it: the tag name returned by the `this.tagName` evaluation and the
`type` attribute (`none` when the element has no type attribute). The
browser side effects (click / Input / Select calls) are recorded as events;
failures of those calls are only logged by the code and do not change the
control flow, so they are not modelled. -/

structure LiveElement where
  tagName : String
  typeAttr : Option String
deriving DecidableEq

inductive FormEffect where
  /-- element.Click on a checkbox/radio input -/
  | clicked (field : String) : FormEffect
  /-- element.Input on an INPUT element -/
  | typedInput (field value : String) : FormEffect
  /-- element.Input on a TEXTAREA element -/
  | typedTextArea (field value : String) : FormEffect
  /-- element.Select (by visible text, retried as a CSS value selector) -/
  | selected (field value : String) : FormEffect
deriving DecidableEq

/-- One iteration of the suggestion loop of `applyFormSuggestions`: skip
unresolved fields and empty values; for INPUT elements dispatch on the type
attribute — checkbox/radio are clicked when the value is "on" or the field
name, any other present type is typed into; an INPUT whose type attribute is
absent falls through the `if inputType != nil` guard and nothing is done;
TEXTAREA is typed into; SELECT is selected. -/
def applySuggestion (elementMap : List (String × LiveElement))
    (suggestion : String × String) : List FormEffect :=
  let fieldName := suggestion.1
  let value := suggestion.2
  match elementMap.find? (fun p => p.1 = fieldName) with
  | none => []
  | some p =>
    if value = "" then []
    else
      let element := p.2
      match element.tagName with
      | "INPUT" =>
        match element.typeAttr with
        | some inputType =>
          if inputType = "checkbox" || inputType = "radio" then
            if value = "on" || value = fieldName then [.clicked fieldName] else []
          else [.typedInput fieldName value]
        | none => []
      | "TEXTAREA" => [.typedTextArea fieldName value]
      | "SELECT" => [.selected fieldName value]
      | _ => []

/-- `applyFormSuggestions(suggestions, elementMap)`: iterate the ordered
suggestion map and apply each suggestion to its resolved element. -/
def applyFormSuggestions (suggestions : List (String × String))
    (elementMap : List (String × LiveElement)) : List FormEffect :=
  suggestions.flatMap (applySuggestion elementMap)
/-! ## Concrete crawl scenarios

Closed values used to evaluate the loop on explicit inputs: environments in
which every browser call succeeds, an environment whose graph insertion fails,
one whose page-pool acquisition fails, and a scope validator that rejects one
URL. -/

def unboundedOptions : CrawlOptions :=
  { maxDepth := 0, maxFailureCount := 0, maxCrawlDurationSet := false,
    scopeValidator := none }

def scopedOptions : CrawlOptions :=
  { maxDepth := 0, maxFailureCount := 0, maxCrawlDurationSet := false,
    scopeValidator := some (fun u => u != "http://out/") }

def budgetOptions : CrawlOptions :=
  { maxDepth := 0, maxFailureCount := 3, maxCrawlDurationSet := false,
    scopeValidator := none }

def depthOptions : CrawlOptions :=
  { maxDepth := 1, maxFailureCount := 0, maxCrawlDurationSet := false,
    scopeValidator := none }

def siteURL : String := "http://site/"

/-- The seed `Crawl` enqueues for `siteURL`. -/
def seedSiteAction : Action :=
  { type := .loadURL, input := siteURL, element := none, depth := 0,
    originID := emptyPageHash }

/-- A navigation to the seed URL as `FindNavigations` reports it (origin not
yet assigned). -/
def discoveredNav : Action :=
  { type := .loadURL, input := siteURL, element := none, depth := 1,
    originID := "" }

/-- `discoveredNav` after the loop assigns the producing page state's id. -/
def mutatedNav : Action :=
  { type := .loadURL, input := siteURL, element := none, depth := 1,
    originID := emptyPageHash }

/-- A page whose content normalizes to the blank-page fingerprint (an empty
response body). -/
def blankLikePageState : PageState :=
  { uniqueID := emptyPageHash, url := siteURL, depth := 1, originID := "" }

def secondPageState : PageState :=
  { uniqueID := "STATE2", url := "http://site/x", depth := 2, originID := "" }

def dedupFnEnv1 : CrawlFnEnv :=
  { pageHash := .ok emptyPageHash, navigateBack := .ok "", execute := .ok (),
    buildPageState := .ok blankLikePageState,
    findNavigations := .ok [discoveredNav], addPageState := .ok () }

def dedupFnEnv2 : CrawlFnEnv :=
  { pageHash := .ok emptyPageHash, navigateBack := .ok "", execute := .ok (),
    buildPageState := .ok secondPageState, findNavigations := .ok [],
    addPageState := .ok () }

def okIterEnv1 : CrawlIterEnv :=
  { timeoutFired := false, getPage := .ok (), fnEnv := dedupFnEnv1 }

def okIterEnv2 : CrawlIterEnv :=
  { timeoutFired := false, getPage := .ok (), fnEnv := dedupFnEnv2 }

/-- A crawl of `siteURL` in which the seed leads to a blank-fingerprint page
containing a link back to the seed URL. -/
def dedupRun : CrawlRun := Crawl unboundedOptions siteURL [okIterEnv1, okIterEnv2]

/-- An environment in which the crawl graph's insertion fails ("graph
corruption") while everything browser-side succeeds. -/
def corruptFnEnv : CrawlFnEnv :=
  { dedupFnEnv2 with addPageState := .error (.other "graph corruption") }

def corruptIterEnv : CrawlIterEnv :=
  { timeoutFired := false, getPage := .ok (), fnEnv := corruptFnEnv }

def corruptRun : CrawlRun := Crawl unboundedOptions siteURL [corruptIterEnv, okIterEnv2]

/-- An iteration whose page-pool acquisition fails. -/
def poolFailIterEnv : CrawlIterEnv :=
  { timeoutFired := false, getPage := .error (.other "pool acquisition failure"),
    fnEnv := dedupFnEnv2 }

/-- A page state whose URL the scope validator of `scopedOptions` rejects. -/
def outOfScopePageState : PageState :=
  { uniqueID := "PS1", url := "http://out/", depth := 1, originID := "" }

def outOfScopeFnEnv : CrawlFnEnv :=
  { pageHash := .ok emptyPageHash, navigateBack := .ok "", execute := .ok (),
    buildPageState := .ok outOfScopePageState,
    findNavigations := .ok [discoveredNav], addPageState := .ok () }

/-- A crawler state with one further pending action and an empty graph. -/
def pendingState : CrawlState :=
  { crawlQueue := [discoveredNav], uniqueActions := [], crawlGraph := [] }

/-- An action beyond the depth bound of `depthOptions`. -/
def deepAction : Action :=
  { type := .loadURL, input := "http://site/deep", element := none, depth := 5,
    originID := "H1" }

def deepQueueState : CrawlState :=
  { crawlQueue := [deepAction], uniqueActions := [], crawlGraph := [] }

end Katana

/-! # Theorems -/

/-! ## Hexadecimal-digit helper lemmas -/

theorem hexDigit_toNat_facts (c : Char) (h : isHexDigitChar c = true) :
    (48 ≤ c.toNat ∧ c.toNat ≤ 57) ∨ (97 ≤ c.toNat ∧ c.toNat ≤ 102) ∨
      (65 ≤ c.toNat ∧ c.toNat ≤ 70) := by
  simp only [isHexDigitChar, Bool.or_eq_true, Bool.and_eq_true,
    decide_eq_true_eq] at h
  rcases h with (⟨h1, h2⟩ | ⟨h1, h2⟩) | ⟨h1, h2⟩
  · exact Or.inl ⟨Char.le_def.mp h1, Char.le_def.mp h2⟩
  · exact Or.inr (Or.inl ⟨Char.le_def.mp h1, Char.le_def.mp h2⟩)
  · exact Or.inr (Or.inr ⟨Char.le_def.mp h1, Char.le_def.mp h2⟩)

theorem hexDigitVal_le_15 (c : Char) (h : isHexDigitChar c = true) :
    hexDigitVal c ≤ 15 := by
  have hf := hexDigit_toNat_facts c h
  unfold hexDigitVal
  split
  · next h9 =>
    have h9n : c.toNat ≤ 57 := Char.le_def.mp h9
    omega
  · next h9 =>
    have h9n : 57 < c.toNat := Char.lt_def.mp (Char.not_le.mp h9)
    split
    · next hF =>
      have hFn : c.toNat ≤ 70 := Char.le_def.mp hF
      omega
    · next hF =>
      have hFn : 70 < c.toNat := Char.lt_def.mp (Char.not_le.mp hF)
      omega

theorem hexDigitChar_ne_sign (c : Char) (h : isHexDigitChar c = true) :
    c ≠ '+' ∧ c ≠ '-' := by
  constructor <;> rintro rfl <;> simp [isHexDigitChar] at h

/-! ## C10 -/

/-- C10: the error fallback of the hex-escape rewrite is unreachable. Every
string matched by the pattern `\\x` + two hex digits parses successfully under
`strconv.ParseInt(·, 16, 32)` (the value is at most 0xff, far below the int32
bound), so `replaceHexEscapeSequence` always returns the HTML numeric entity
`&#x<hex>;` — never the original match, from which it always differs. -/
theorem hexEscape_rewrite_total (d1 d2 : Char)
    (h1 : isHexDigitChar d1 = true) (h2 : isHexDigitChar d2 = true) :
    goParseIntHex32 (String.mk [d1, d2]) =
      some ((16 * hexDigitVal d1 + hexDigitVal d2 : Nat) : Int) ∧
    replaceHexEscapeSequence (String.mk ['\\', 'x', d1, d2]) =
      "&#x" ++ natToHexLower (16 * hexDigitVal d1 + hexDigitVal d2) ++ ";" ∧
    replaceHexEscapeSequence (String.mk ['\\', 'x', d1, d2]) ≠
      String.mk ['\\', 'x', d1, d2] := by
  obtain ⟨hp1, hm1⟩ := hexDigitChar_ne_sign d1 h1
  have hv1 := hexDigitVal_le_15 d1 h1
  have hv2 := hexDigitVal_le_15 d2 h2
  have hparse : goParseIntHex32 (String.mk [d1, d2]) =
      some ((16 * hexDigitVal d1 + hexDigitVal d2 : Nat) : Int) := by
    unfold goParseIntHex32
    simp [hp1, hm1, h1, h2, hexValOfDigits]
    omega
  have hrw : replaceHexEscapeSequence (String.mk ['\\', 'x', d1, d2]) =
      "&#x" ++ natToHexLower (16 * hexDigitVal d1 + hexDigitVal d2) ++ ";" := by
    unfold replaceHexEscapeSequence goTrimPrefixOf
    have hdata : ("\\x" : String).data = ['\\', 'x'] := rfl
    rw [hdata]
    simp [List.isPrefixOf, hparse, intToHexLower]
    rw [if_neg (by omega)]
    have habs : (16 * (hexDigitVal d1 : Int) + (hexDigitVal d2 : Int)).natAbs =
        16 * hexDigitVal d1 + hexDigitVal d2 := by omega
    rw [habs]
  refine ⟨hparse, hrw, ?_⟩
  rw [hrw]
  intro heq
  have hd := congrArg String.data heq
  have hdx : ("&#x" ++ natToHexLower (16 * hexDigitVal d1 + hexDigitVal d2) ++ ";").data =
      "&#x".data ++ (natToHexLower (16 * hexDigitVal d1 + hexDigitVal d2)).data ++
        (";" : String).data := by
    simp [String.data_append]
  rw [hdx] at hd
  have h3 : ("&#x" : String).data = ['&', '#', 'x'] := rfl
  rw [h3] at hd
  simp at hd

/-- Witness for C10 at the concrete match `\x4a`. -/
theorem hexEscape_rewrite_total_witness :
    goParseIntHex32 "4a" = some 74 ∧
    replaceHexEscapeSequence "\\x4a" = "&#x4a;" ∧
    replaceHexEscapeSequence "\\x4a" ≠ "\\x4a" :=
  hexEscape_rewrite_total '4' 'a' (by decide) (by decide)

/-! ## C1 -/

/-- C1 counterexample: on the input "%252525" the pipeline the spec describes
(with a pre/post-process pass between DOM normalization and text
normalization) produces a different string from `Normalizer.Apply`: the
claimed middle pass URL-decodes one extra layer of percent-encoding, giving a
body of "%" where the real pipeline leaves "%25". -/
theorem normalizer_stage_order_counterexample :
    Normalizer.Apply "%252525" ≠ runNormStages specClaimedStages "%252525" ∧
    Normalizer.Apply "%252525" = "<html><head></head><body>%25</body></html>" ∧
    runNormStages specClaimedStages "%252525" =
      "<html><head></head><body>%</body></html>" := by
  refine ⟨by decide, by decide, by decide⟩

/-- C1 amended: `Normalizer.Apply` runs, in order, document pre/post-process →
DOM-normalizer application → text-content stripping → text normalization →
document pre/post-process; the pre/post-process step runs exactly twice (first
and last), not the three times the spec claims, and the pass between DOM
normalization and text normalization is the text-content stripping, not a
pre/post-process pass. -/
theorem normalizer_stage_order :
    (∀ s, Normalizer.Apply s = runNormStages normalizerApplyStages s) ∧
    normalizerApplyStages.count NormStage.prePostProcess = 2 ∧
    specClaimedStages.count NormStage.prePostProcess = 3 :=
  ⟨fun s => by
    simp only [runNormStages, normalizerApplyStages, List.foldl, normStageFn,
      Normalizer.Apply], by decide, by decide⟩

/-! ## C6 -/

/-- C6 counterexample: the pipeline is not idempotent. Each application
URL-decodes one layer of percent-encoding, so on the doubly-encoded input
"%252525" the second application still changes the string. -/
theorem normalizer_apply_not_idempotent :
    Normalizer.Apply (Normalizer.Apply "%252525") ≠ Normalizer.Apply "%252525" ∧
    Normalizer.Apply "%252525" = "<html><head></head><body>%25</body></html>" ∧
    Normalizer.Apply (Normalizer.Apply "%252525") =
      "<html><head></head><body>%</body></html>" := by
  refine ⟨by decide, by decide, by decide⟩

/-- C6 amended: `Apply (Apply x) = Apply x` does not hold for every input —
URL decoding inside the pre/post-processor strips one percent-encoding layer
per application, so multiply-encoded inputs keep changing — but it holds on
inputs whose first application leaves no decodable percent escape, as on the
plain-text inputs here. -/
theorem normalizer_apply_idempotent_instances :
    Normalizer.Apply (Normalizer.Apply "hello") = Normalizer.Apply "hello" ∧
    Normalizer.Apply (Normalizer.Apply "contact us") =
      Normalizer.Apply "contact us" := by
  refine ⟨by decide, by decide⟩

/-! ## C7 -/

/-- C7 counterexample: "+1234567" consists of one token of the phone-number
class — seven digits with the optional leading '+' — and nothing else, yet
text normalization leaves "+" (not the empty string) after trimming: the `\b`
at the start of the phone pattern cannot sit before '+' at the start of the
text, so the match begins at the first digit and the '+' survives. -/
theorem textNormalizer_phone_plus_residue :
    goTrim (TextNormalizer.Apply "+1234567") [' ', '\r', '\n', '\t'] = "+" ∧
    goTrim (TextNormalizer.Apply "+1234567") [' ', '\r', '\n', '\t'] ≠ "" := by
  refine ⟨by decide, by decide⟩

/-- C7 amended: single-token strings of each default pattern class erase to
the empty string — email, IPv4, UUID, relative date, currency price, phone
digits, SSN, ISO and US timestamps — except that a phone token written with
its optional leading '+' erases only the digits and leaves "+". -/
theorem textNormalizer_erasure :
    TextNormalizer.Apply "test@example.com" = "" ∧
    TextNormalizer.Apply "192.168.1.1" = "" ∧
    TextNormalizer.Apply "550e8400-e29b-41d4-a716-446655440000" = "" ∧
    TextNormalizer.Apply "5 days ago" = "" ∧
    TextNormalizer.Apply "2 weeks from now" = "" ∧
    TextNormalizer.Apply "$19.99" = "" ∧
    TextNormalizer.Apply "¥1000" = "" ∧
    TextNormalizer.Apply "1234567890" = "" ∧
    TextNormalizer.Apply "123-45-6789" = "" ∧
    TextNormalizer.Apply "2023-12-25 14:30:00" = "" ∧
    TextNormalizer.Apply "12/25/2023 09:15:30" = "" ∧
    TextNormalizer.Apply "+1234567" = "+" := by
  refine ⟨by decide, by decide, by decide, by decide, by decide, by decide,
    by decide, by decide, by decide, by decide, by decide, by decide⟩

/-! ## Crawl-loop helper lemmas -/

open Katana

theorem classifyCrawlResult_error_continue (e : GoError)
    (he : e ≠ GoError.noCrawlingAction) :
    classifyCrawlResult (Except.error e) = LoopDecision.continueFail := by
  cases e
  case noCrawlingAction => exact absurd rfl he
  all_goals rfl

theorem crawlStep_pool_error_halts (opts : CrawlOptions) (env : CrawlIterEnv)
    (st : CrawlState) (f : Nat) (a : Action) (pending : List Action) (e : GoError)
    (hq : st.crawlQueue = a :: pending)
    (htime : ¬(opts.maxCrawlDurationSet ∧ env.timeoutFired))
    (hbudget : ¬(0 < opts.maxFailureCount ∧ opts.maxFailureCount ≤ f))
    (hdepth : ¬(0 < opts.maxDepth ∧ opts.maxDepth < a.depth))
    (hpage : env.getPage = Except.error e) :
    crawlStep opts env st f =
      StepResult.halt (some e) { st with crawlQueue := pending }
        [CrawlEvent.dequeued a] := by
  unfold crawlStep
  rw [if_neg (by simpa using htime), if_neg (by simpa using hbudget)]
  rw [hq]
  simp only []
  rw [if_neg (by simpa using hdepth)]
  rw [hpage]

theorem crawlStep_error_continues (opts : CrawlOptions) (env : CrawlIterEnv)
    (st : CrawlState) (f : Nat) (a : Action) (pending : List Action)
    (e : GoError) (st1 : CrawlState) (evs : List CrawlEvent)
    (hq : st.crawlQueue = a :: pending)
    (htime : ¬(opts.maxCrawlDurationSet ∧ env.timeoutFired))
    (hbudget : ¬(0 < opts.maxFailureCount ∧ opts.maxFailureCount ≤ f))
    (hdepth : ¬(0 < opts.maxDepth ∧ opts.maxDepth < a.depth))
    (hpage : env.getPage = Except.ok ())
    (hfn : crawlFn opts env.fnEnv a { st with crawlQueue := pending } =
      (Except.error e, st1, evs))
    (he : e ≠ GoError.noCrawlingAction) :
    crawlStep opts env st f =
      StepResult.next st1 (f + 1)
        (CrawlEvent.dequeued a :: CrawlEvent.processed a :: evs) := by
  unfold crawlStep
  rw [if_neg (by simpa using htime), if_neg (by simpa using hbudget)]
  rw [hq]
  simp only []
  rw [if_neg (by simpa using hdepth)]
  rw [hpage]
  simp only [hfn]
  rw [classifyCrawlResult_error_continue e he]

theorem crawlStep_success_resets (opts : CrawlOptions) (env : CrawlIterEnv)
    (st : CrawlState) (f : Nat) (a : Action) (pending : List Action)
    (st1 : CrawlState) (evs : List CrawlEvent)
    (hq : st.crawlQueue = a :: pending)
    (htime : ¬(opts.maxCrawlDurationSet ∧ env.timeoutFired))
    (hbudget : ¬(0 < opts.maxFailureCount ∧ opts.maxFailureCount ≤ f))
    (hdepth : ¬(0 < opts.maxDepth ∧ opts.maxDepth < a.depth))
    (hpage : env.getPage = Except.ok ())
    (hfn : crawlFn opts env.fnEnv a { st with crawlQueue := pending } =
      (Except.ok (), st1, evs)) :
    crawlStep opts env st f =
      StepResult.next st1 0
        (CrawlEvent.dequeued a :: CrawlEvent.processed a :: evs) := by
  unfold crawlStep
  rw [if_neg (by simpa using htime), if_neg (by simpa using hbudget)]
  rw [hq]
  simp only []
  rw [if_neg (by simpa using hdepth)]
  rw [hpage]
  simp only [hfn]
  rfl

theorem crawlStep_depth_drop (opts : CrawlOptions) (env : CrawlIterEnv)
    (st : CrawlState) (f : Nat) (a : Action) (pending : List Action)
    (hq : st.crawlQueue = a :: pending)
    (htime : ¬(opts.maxCrawlDurationSet ∧ env.timeoutFired))
    (hbudget : ¬(0 < opts.maxFailureCount ∧ opts.maxFailureCount ≤ f))
    (hD : 0 < opts.maxDepth) (hdeep : opts.maxDepth < a.depth) :
    crawlStep opts env st f =
      StepResult.next { st with crawlQueue := pending } f
        [CrawlEvent.dequeued a, CrawlEvent.droppedByDepth a] := by
  unfold crawlStep
  rw [if_neg (by simpa using htime), if_neg (by simpa using hbudget)]
  rw [hq]
  simp only []
  rw [if_pos (by simp only [Bool.and_eq_true, decide_eq_true_eq]; exact ⟨hD, hdeep⟩)]

theorem crawlStep_budget_halts (opts : CrawlOptions) (env : CrawlIterEnv)
    (st : CrawlState) (f : Nat)
    (hN : 0 < opts.maxFailureCount) (hf : opts.maxFailureCount ≤ f) :
    crawlStep opts env st f = StepResult.halt none st [] := by
  unfold crawlStep
  by_cases ht : (opts.maxCrawlDurationSet && env.timeoutFired) = true
  · rw [if_pos ht]
  · rw [if_neg ht, if_pos]
    simp only [Bool.and_eq_true, decide_eq_true_eq]
    exact ⟨hN, hf⟩

theorem crawlLoop_budget_halts (opts : CrawlOptions) (env : CrawlIterEnv)
    (rest : List CrawlIterEnv) (st : CrawlState) (f : Nat)
    (hN : 0 < opts.maxFailureCount) (hf : opts.maxFailureCount ≤ f) :
    crawlLoop opts (env :: rest) st f =
      { outcome := CrawlOutcome.finished none, finalState := st, trace := [] } := by
  have hstep := crawlStep_budget_halts opts env st f hN hf
  simp [crawlLoop, hstep]

theorem offerNavigation_fold_no_processed (pid : String) (navs : List Action)
    (acc : CrawlState × List CrawlEvent) (a : Action)
    (hacc : CrawlEvent.processed a ∉ acc.2) :
    CrawlEvent.processed a ∉ (navs.foldl (offerNavigation pid) acc).2 := by
  induction navs generalizing acc with
  | nil => simpa using hacc
  | cons nav rest ih =>
    simp only [List.foldl_cons]
    apply ih
    by_cases hc : nav.Hash ∈ acc.1.uniqueActions
    · simp [offerNavigation, hc, hacc]
    · cases hel : nav.element with
      | none => simp [offerNavigation, hc, hel, hacc]
      | some el =>
        by_cases hl : isLogoutPage el
        · simp [offerNavigation, hc, hel, hl, hacc]
        · simp [offerNavigation, hc, hel, hl, hacc]

theorem crawlFn_no_processed (opts : CrawlOptions) (env : CrawlFnEnv)
    (action : Action) (st : CrawlState) (a : Action) :
    CrawlEvent.processed a ∉ (crawlFn opts env action st).2.2 := by
  cases hph : env.pageHash <;>
  cases hnb : env.navigateBack <;>
  cases hex : env.execute <;>
  cases hps : env.buildPageState <;>
  cases hfn : env.findNavigations <;>
  cases hap : env.addPageState <;>
    (unfold crawlFn
     simp only [hph, hnb, hex, hps, hfn, hap]
     repeat' split) <;>
    first
      | (simp; done)
      | (intro hmem
         rcases List.mem_append.mp (by first | simpa using hmem | exact hmem)
           with h1 | h2
         · refine offerNavigation_fold_no_processed _ _ _ _ ?_ h1
           simp
         · simp at h2)
      | (intro hmem
         refine offerNavigation_fold_no_processed _ _ _ _ ?_ hmem
         simp)

theorem crawlStep_processed_depth (opts : CrawlOptions) (env : CrawlIterEnv)
    (st : CrawlState) (f : Nat) (a : Action) (hD : 0 < opts.maxDepth)
    (hmem : CrawlEvent.processed a ∈ (crawlStep opts env st f).events) :
    a.depth ≤ opts.maxDepth := by
  unfold crawlStep at hmem
  split at hmem
  · simp [StepResult.events] at hmem
  · split at hmem
    · simp [StepResult.events] at hmem
    · split at hmem
      · simp [StepResult.events] at hmem
      · rename_i xs b pending hq
        split at hmem
        · simp [StepResult.events] at hmem
        · rename_i hdeep
          split at hmem
          · simp [StepResult.events] at hmem
          · rename_i u hgp
            have hev : ∀ (r : Except GoError Unit × CrawlState × List CrawlEvent),
                (match classifyCrawlResult r.1 with
                  | LoopDecision.returnNil => StepResult.halt none r.2.1
                      (CrawlEvent.dequeued b :: CrawlEvent.processed b :: r.2.2)
                  | LoopDecision.returnErr e => StepResult.halt (some e) r.2.1
                      (CrawlEvent.dequeued b :: CrawlEvent.processed b :: r.2.2)
                  | LoopDecision.continueFail => StepResult.next r.2.1 (f + 1)
                      (CrawlEvent.dequeued b :: CrawlEvent.processed b :: r.2.2)
                  | LoopDecision.resetOk => StepResult.next r.2.1 0
                      (CrawlEvent.dequeued b :: CrawlEvent.processed b :: r.2.2)).events =
                  CrawlEvent.dequeued b :: CrawlEvent.processed b :: r.2.2 := by
              intro r
              cases classifyCrawlResult r.1 <;> rfl
            rw [hev] at hmem
            simp at hmem
            rcases hmem with rfl | h2
            · have hnd : ¬ opts.maxDepth < a.depth := by
                intro hlt
                exact hdeep (by
                  simp only [Bool.and_eq_true, decide_eq_true_eq]
                  exact ⟨hD, hlt⟩)
              omega
            · exact absurd h2 (crawlFn_no_processed _ _ _ _ _)

theorem crawlLoop_processed_depth (opts : CrawlOptions) (hD : 0 < opts.maxDepth) :
    ∀ (envs : List CrawlIterEnv) (st : CrawlState) (f : Nat) (a : Action),
      CrawlEvent.processed a ∈ (crawlLoop opts envs st f).trace →
      a.depth ≤ opts.maxDepth := by
  intro envs
  induction envs with
  | nil =>
    intro st f a h
    simp [crawlLoop] at h
  | cons env rest ih =>
    intro st f a h
    unfold crawlLoop at h
    cases hstep : crawlStep opts env st f with
    | halt r st1 evs =>
      rw [hstep] at h
      simp at h
      exact crawlStep_processed_depth opts env st f a hD
        (by rw [hstep]; simpa [StepResult.events] using h)
    | next st1 f1 evs =>
      rw [hstep] at h
      simp at h
      rcases h with h1 | h2
      · exact crawlStep_processed_depth opts env st f a hD
          (by rw [hstep]; simpa [StepResult.events] using h1)
      · exact ih st1 f1 a h2

theorem offeredHashes_append (l1 l2 : List CrawlEvent) :
    offeredHashes (l1 ++ l2) = offeredHashes l1 ++ offeredHashes l2 :=
  List.filterMap_append l1 l2 _

theorem offeredHashes_append_stateAdded (l : List CrawlEvent) (ps : PageState) :
    offeredHashes (l ++ [CrawlEvent.stateAdded ps]) = offeredHashes l := by
  rw [offeredHashes_append]
  simp [offeredHashes]

theorem offeredHashes_cons_dequeued (a : Action) (l : List CrawlEvent) :
    offeredHashes (CrawlEvent.dequeued a :: l) = offeredHashes l := by
  simp [offeredHashes]

theorem offeredHashes_cons_processed (a : Action) (l : List CrawlEvent) :
    offeredHashes (CrawlEvent.processed a :: l) = offeredHashes l := by
  simp [offeredHashes]

theorem offerNavigation_fold_invariant (pid : String) (navs : List Action) :
    ∀ (acc : CrawlState × List CrawlEvent),
      (offeredHashes acc.2).Nodup →
      (∀ h ∈ offeredHashes acc.2, h ∈ acc.1.uniqueActions) →
      ((offeredHashes (navs.foldl (offerNavigation pid) acc).2).Nodup ∧
       (∀ h ∈ offeredHashes (navs.foldl (offerNavigation pid) acc).2,
          h ∈ (navs.foldl (offerNavigation pid) acc).1.uniqueActions) ∧
       (∀ h ∈ acc.1.uniqueActions,
          h ∈ (navs.foldl (offerNavigation pid) acc).1.uniqueActions) ∧
       (∀ h ∈ offeredHashes (navs.foldl (offerNavigation pid) acc).2,
          h ∈ offeredHashes acc.2 ∨ h ∉ acc.1.uniqueActions)) := by
  induction navs with
  | nil =>
    intro acc h1 h2
    exact ⟨h1, h2, fun h hh => hh, fun h hh => Or.inl hh⟩
  | cons nav rest ih =>
    intro acc h1 h2
    simp only [List.foldl_cons]
    by_cases hc : nav.Hash ∈ acc.1.uniqueActions
    · have hoff : offerNavigation pid acc nav = acc := by
        simp [offerNavigation, hc]
      rw [hoff]
      exact ih acc h1 h2
    · have hgrow : ∀ (acc' : CrawlState × List CrawlEvent),
          (offerNavigation pid acc nav = acc') →
          (acc'.1.uniqueActions = acc.1.uniqueActions ++ [nav.Hash]) →
          (acc'.2 = acc.2 ∨
            acc'.2 = acc.2 ++
              [CrawlEvent.offered { nav with originID := pid } nav.Hash]) →
          ((offeredHashes (rest.foldl (offerNavigation pid) acc').2).Nodup ∧
           (∀ h ∈ offeredHashes (rest.foldl (offerNavigation pid) acc').2,
              h ∈ (rest.foldl (offerNavigation pid) acc').1.uniqueActions) ∧
           (∀ h ∈ acc.1.uniqueActions,
              h ∈ (rest.foldl (offerNavigation pid) acc').1.uniqueActions) ∧
           (∀ h ∈ offeredHashes (rest.foldl (offerNavigation pid) acc').2,
              h ∈ offeredHashes acc.2 ∨ h ∉ acc.1.uniqueActions)) := by
        intro acc' _ hu hevs
        have hsub : ∀ h ∈ acc.1.uniqueActions, h ∈ acc'.1.uniqueActions := by
          intro h hh
          rw [hu]
          exact List.mem_append_left _ hh
        have hOffSub : ∀ h ∈ offeredHashes acc'.2,
            h ∈ offeredHashes acc.2 ∨ h = nav.Hash := by
          rcases hevs with he | he <;> rw [he]
          · exact fun h hh => Or.inl hh
          · intro h hh
            rw [offeredHashes_append] at hh
            rcases List.mem_append.mp hh with hx | hx
            · exact Or.inl hx
            · simp [offeredHashes] at hx
              exact Or.inr hx
        have h1' : (offeredHashes acc'.2).Nodup := by
          rcases hevs with he | he <;> rw [he]
          · exact h1
          · rw [offeredHashes_append]
            have hx1 : offeredHashes
                [CrawlEvent.offered { nav with originID := pid } nav.Hash] =
                  [nav.Hash] := by simp [offeredHashes]
            rw [hx1, List.nodup_append]
            refine ⟨h1, List.nodup_singleton _, ?_⟩
            intro h hh hmem
            have hx2 : h = nav.Hash := by simpa using hmem
            subst hx2
            exact hc (h2 _ hh)
        have h2' : ∀ h ∈ offeredHashes acc'.2, h ∈ acc'.1.uniqueActions := by
          intro h hh
          rcases hOffSub h hh with hx | hx
          · exact hsub h (h2 h hx)
          · rw [hu, hx]
            exact List.mem_append_right _ (by simp)
        obtain ⟨g1, g2, g3, g4⟩ := ih acc' h1' h2'
        refine ⟨g1, g2, fun h hh => g3 h (hsub h hh), ?_⟩
        intro h hh
        rcases g4 h hh with hx | hx
        · rcases hOffSub h hx with hy | hy
          · exact Or.inl hy
          · subst hy
            exact Or.inr hc
        · right
          intro hcontr
          exact hx (hsub h hcontr)
      cases hel : nav.element with
      | none =>
        refine hgrow (offerNavigation pid acc nav) rfl ?_ ?_
        · simp [offerNavigation, hc, hel]
        · right
          simp [offerNavigation, hc, hel]
      | some el =>
        by_cases hl : isLogoutPage el
        · refine hgrow (offerNavigation pid acc nav) rfl ?_ ?_
          · simp [offerNavigation, hc, hel, hl]
          · left
            simp [offerNavigation, hc, hel, hl]
        · refine hgrow (offerNavigation pid acc nav) rfl ?_ ?_
          · simp [offerNavigation, hc, hel, hl]
          · right
            simp [offerNavigation, hc, hel, hl]

theorem fold_inv_from_empty (pid : String) (navs : List Action) (st : CrawlState) :
    (offeredHashes (navs.foldl (offerNavigation pid) (st, [])).2).Nodup ∧
    (∀ h ∈ offeredHashes (navs.foldl (offerNavigation pid) (st, [])).2,
       h ∈ (navs.foldl (offerNavigation pid) (st, [])).1.uniqueActions ∧
         h ∉ st.uniqueActions) ∧
    (∀ h ∈ st.uniqueActions,
       h ∈ (navs.foldl (offerNavigation pid) (st, [])).1.uniqueActions) := by
  obtain ⟨g1, g2, g3, g4⟩ := offerNavigation_fold_invariant pid navs (st, [])
    (by simp [offeredHashes]) (by simp [offeredHashes])
  refine ⟨g1, ?_, g3⟩
  intro h hh
  refine ⟨g2 h hh, ?_⟩
  rcases g4 h hh with hx | hx
  · simp [offeredHashes] at hx
  · exact hx

theorem fold_inv_graph (pid : String) (navs : List Action) (st : CrawlState)
    (ps : PageState) :
    (offeredHashes ((navs.foldl (offerNavigation pid) (st, [])).2 ++
      [CrawlEvent.stateAdded ps])).Nodup ∧
    (∀ h ∈ offeredHashes ((navs.foldl (offerNavigation pid) (st, [])).2 ++
        [CrawlEvent.stateAdded ps]),
       h ∈ (navs.foldl (offerNavigation pid) (st, [])).1.uniqueActions ∧
         h ∉ st.uniqueActions) ∧
    (∀ h ∈ st.uniqueActions,
       h ∈ (navs.foldl (offerNavigation pid) (st, [])).1.uniqueActions) := by
  rw [offeredHashes_append_stateAdded]
  exact fold_inv_from_empty pid navs st

theorem crawlFn_offered_invariant (opts : CrawlOptions) (env : CrawlFnEnv)
    (action : Action) (st : CrawlState) :
    (offeredHashes (crawlFn opts env action st).2.2).Nodup ∧
    (∀ h ∈ offeredHashes (crawlFn opts env action st).2.2,
       h ∈ (crawlFn opts env action st).2.1.uniqueActions ∧
         h ∉ st.uniqueActions) ∧
    (∀ h ∈ st.uniqueActions,
       h ∈ (crawlFn opts env action st).2.1.uniqueActions) := by
  cases hph : env.pageHash <;>
  cases hnb : env.navigateBack <;>
  cases hex : env.execute <;>
  cases hps : env.buildPageState <;>
  cases hfn : env.findNavigations <;>
  cases hap : env.addPageState <;>
    (unfold crawlFn
     simp only [hph, hnb, hex, hps, hfn, hap]
     repeat' split) <;>
    first
      | exact ⟨by simp [offeredHashes], by simp [offeredHashes], fun h hh => hh⟩
      | exact fold_inv_from_empty _ _ _
      | exact fold_inv_graph _ _ _ _

theorem classify_dispatch_events (b : Action) (f : Nat)
    (r : Except GoError Unit × CrawlState × List CrawlEvent) :
    (match classifyCrawlResult r.1 with
      | LoopDecision.returnNil => StepResult.halt none r.2.1
          (CrawlEvent.dequeued b :: CrawlEvent.processed b :: r.2.2)
      | LoopDecision.returnErr e => StepResult.halt (some e) r.2.1
          (CrawlEvent.dequeued b :: CrawlEvent.processed b :: r.2.2)
      | LoopDecision.continueFail => StepResult.next r.2.1 (f + 1)
          (CrawlEvent.dequeued b :: CrawlEvent.processed b :: r.2.2)
      | LoopDecision.resetOk => StepResult.next r.2.1 0
          (CrawlEvent.dequeued b :: CrawlEvent.processed b :: r.2.2)).events =
      CrawlEvent.dequeued b :: CrawlEvent.processed b :: r.2.2 := by
  cases classifyCrawlResult r.1 <;> rfl

theorem classify_dispatch_outState (b : Action) (f : Nat)
    (r : Except GoError Unit × CrawlState × List CrawlEvent) :
    (match classifyCrawlResult r.1 with
      | LoopDecision.returnNil => StepResult.halt none r.2.1
          (CrawlEvent.dequeued b :: CrawlEvent.processed b :: r.2.2)
      | LoopDecision.returnErr e => StepResult.halt (some e) r.2.1
          (CrawlEvent.dequeued b :: CrawlEvent.processed b :: r.2.2)
      | LoopDecision.continueFail => StepResult.next r.2.1 (f + 1)
          (CrawlEvent.dequeued b :: CrawlEvent.processed b :: r.2.2)
      | LoopDecision.resetOk => StepResult.next r.2.1 0
          (CrawlEvent.dequeued b :: CrawlEvent.processed b :: r.2.2)).outState =
      r.2.1 := by
  cases classifyCrawlResult r.1 <;> rfl

theorem crawlStep_offered_invariant (opts : CrawlOptions) (env : CrawlIterEnv)
    (st : CrawlState) (f : Nat) :
    (offeredHashes (crawlStep opts env st f).events).Nodup ∧
    (∀ h ∈ offeredHashes (crawlStep opts env st f).events,
       h ∈ (crawlStep opts env st f).outState.uniqueActions ∧
         h ∉ st.uniqueActions) ∧
    (∀ h ∈ st.uniqueActions,
       h ∈ (crawlStep opts env st f).outState.uniqueActions) := by
  unfold crawlStep
  repeat' split
  all_goals
    first
      | exact ⟨by simp [offeredHashes, StepResult.events],
          by simp [offeredHashes, StepResult.events], fun h hh => hh⟩
      | (rw [classify_dispatch_events, classify_dispatch_outState,
           offeredHashes_cons_dequeued, offeredHashes_cons_processed]
         exact crawlFn_offered_invariant _ _ _ _)

theorem crawlLoop_offered_invariant (opts : CrawlOptions) :
    ∀ (envs : List CrawlIterEnv) (st : CrawlState) (f : Nat),
      (offeredHashes (crawlLoop opts envs st f).trace).Nodup ∧
      (∀ h ∈ offeredHashes (crawlLoop opts envs st f).trace,
         h ∈ (crawlLoop opts envs st f).finalState.uniqueActions ∧
           h ∉ st.uniqueActions) ∧
      (∀ h ∈ st.uniqueActions,
         h ∈ (crawlLoop opts envs st f).finalState.uniqueActions) := by
  intro envs
  induction envs with
  | nil =>
    intro st f
    exact ⟨by simp [crawlLoop, offeredHashes],
      by simp [crawlLoop, offeredHashes], fun h hh => hh⟩
  | cons env rest ih =>
    intro st f
    have hs := crawlStep_offered_invariant opts env st f
    unfold crawlLoop
    cases hstep : crawlStep opts env st f with
    | halt r st1 evs =>
      rw [hstep] at hs
      simp only [StepResult.events, StepResult.outState] at hs
      simpa using hs
    | next st1 f1 evs =>
      rw [hstep] at hs
      simp only [StepResult.events, StepResult.outState] at hs
      obtain ⟨s1, s2, s3⟩ := hs
      obtain ⟨r1, r2, r3⟩ := ih st1 f1
      simp only []
      refine ⟨?_, ?_, ?_⟩
      · rw [offeredHashes_append, List.nodup_append]
        refine ⟨s1, r1, ?_⟩
        intro h hh hmem
        exact (r2 h hmem).2 ((s2 h hh).1)
      · intro h hh
        rw [offeredHashes_append] at hh
        rcases List.mem_append.mp hh with h1 | h2
        · exact ⟨r3 _ (s2 h h1).1, (s2 h h1).2⟩
        · refine ⟨(r2 h h2).1, ?_⟩
          intro hcontr
          exact (r2 h h2).2 (s3 h hcontr)
      · intro h hh
        exact r3 h (s3 h hh)

theorem applySuggestion_typed (elementMap : List (String × LiveElement))
    (fieldName value : String) (el : LiveElement) (t : String)
    (hfind : elementMap.find? (fun p => p.1 = fieldName) = some (fieldName, el))
    (htag : el.tagName = "INPUT") (hty : el.typeAttr = some t)
    (hcb : t ≠ "checkbox") (hrd : t ≠ "radio") (hv : value ≠ "") :
    applySuggestion elementMap (fieldName, value) =
      [FormEffect.typedInput fieldName value] := by
  unfold applySuggestion
  simp only [hfind]
  rw [if_neg hv]
  rw [htag, hty]
  simp [hcb, hrd]

/-! ## C2 -/

/-- C2 counterexample: in a crawl whose only action surfaces a
graph-corruption error from `AddPageState` inside `crawlFn`, `Crawl` does not
terminate with that error — the catch-all branch of the classification chain
treats it as a site-specific failure and the crawl ends normally (nil) when
the queue drains. -/
theorem crawl_unclassified_error_swallowed :
    corruptRun.outcome = CrawlOutcome.finished none ∧
    corruptRun.outcome ≠
      CrawlOutcome.finished (some (GoError.other "graph corruption")) :=
  ⟨by decide, by decide⟩

/-- C2 amended: only errors arising outside `crawlFn` are returned to the
caller — a failing page-pool acquisition halts the crawl with that error —
while every non-sentinel error returned by `crawlFn` (graph corruption,
context cancellation, and any other unclassified error included) falls
through the classification chain to the site-specific default: the
consecutive-failure counter increments and the crawl continues. -/
theorem crawl_error_propagation :
    (∀ e : GoError, e ≠ GoError.noCrawlingAction →
      classifyCrawlResult (Except.error e) = LoopDecision.continueFail) ∧
    (∀ (opts : CrawlOptions) (env : CrawlIterEnv) (st : CrawlState) (f : Nat)
        (a : Action) (pending : List Action) (e : GoError),
      st.crawlQueue = a :: pending →
      ¬(opts.maxCrawlDurationSet ∧ env.timeoutFired) →
      ¬(0 < opts.maxFailureCount ∧ opts.maxFailureCount ≤ f) →
      ¬(0 < opts.maxDepth ∧ opts.maxDepth < a.depth) →
      env.getPage = Except.error e →
      crawlStep opts env st f =
        StepResult.halt (some e) { st with crawlQueue := pending }
          [CrawlEvent.dequeued a]) ∧
    (∀ (opts : CrawlOptions) (env : CrawlIterEnv) (st : CrawlState) (f : Nat)
        (a : Action) (pending : List Action) (e : GoError) (st1 : CrawlState)
        (evs : List CrawlEvent),
      st.crawlQueue = a :: pending →
      ¬(opts.maxCrawlDurationSet ∧ env.timeoutFired) →
      ¬(0 < opts.maxFailureCount ∧ opts.maxFailureCount ≤ f) →
      ¬(0 < opts.maxDepth ∧ opts.maxDepth < a.depth) →
      env.getPage = Except.ok () →
      crawlFn opts env.fnEnv a { st with crawlQueue := pending } =
        (Except.error e, st1, evs) →
      e ≠ GoError.noCrawlingAction →
      crawlStep opts env st f =
        StepResult.next st1 (f + 1)
          (CrawlEvent.dequeued a :: CrawlEvent.processed a :: evs)) :=
  ⟨classifyCrawlResult_error_continue, crawlStep_pool_error_halts,
    crawlStep_error_continues⟩

/-- Witness for C2 at a concrete pool-acquisition failure. -/
theorem crawl_error_propagation_witness :
    crawlStep unboundedOptions poolFailIterEnv pendingState 0 =
      StepResult.halt (some (GoError.other "pool acquisition failure"))
        { pendingState with crawlQueue := [] }
        [CrawlEvent.dequeued discoveredNav] :=
  crawl_error_propagation.2.1 unboundedOptions poolFailIterEnv pendingState 0
    discoveredNav [] (GoError.other "pool acquisition failure") rfl
    (by decide) (by decide) (by decide) rfl

/-! ## C3 -/

/-- C3 counterexample: an action whose post-action URL is rejected by the
scope validator returns from `crawlFn` before `AddPageState` runs — the
produced page state is not added to the crawl graph (it stays empty), so the
out-of-scope page state is dropped, not retained. -/
theorem crawlFn_out_of_scope_state_dropped :
    crawlFn scopedOptions outOfScopeFnEnv seedSiteAction pendingState =
      (Except.ok (), pendingState, []) ∧
    (crawlFn scopedOptions outOfScopeFnEnv seedSiteAction
      pendingState).2.1.crawlGraph = [] :=
  ⟨by decide, by decide⟩

/-- C3 amended: when the configured scope validator rejects the post-action
URL, `crawlFn` returns early — OK when further actions are queued,
NO_MORE_ACTIONS when the queue is empty — leaving the crawler state fully
unchanged: navigation harvesting is suppressed AND the resulting PageState is
not added to the crawl graph. -/
theorem crawlFn_out_of_scope (opts : CrawlOptions) (env : CrawlFnEnv)
    (action : Action) (st : CrawlState) (validate : String → Bool)
    (h1 h2 : String) (ps : PageState)
    (hv : opts.scopeValidator = some validate)
    (hph : env.pageHash = Except.ok h1)
    (hnav : action.originID ≠ "" ∧ action.originID ≠ h1 →
      env.navigateBack = Except.ok h2)
    (hex : env.execute = Except.ok ())
    (hps : env.buildPageState = Except.ok ps)
    (hout : validate ps.url = false) :
    crawlFn opts env action st =
      ((if st.crawlQueue.length = 0 then Except.error GoError.noCrawlingAction
        else Except.ok ()), st, []) := by
  unfold crawlFn
  rw [hph, hv]
  simp only [Bool.and_eq_true, decide_eq_true_eq]
  by_cases hc : action.originID ≠ "" ∧ action.originID ≠ h1
  · rw [if_pos hc, hnav hc, hex, hps]
    simp only [hout]
    by_cases hq : st.crawlQueue = [] <;> simp [hq]
  · rw [if_neg hc, hex, hps]
    simp only [hout]
    by_cases hq : st.crawlQueue = [] <;> simp [hq]

/-- Witness for C3 at a concrete out-of-scope page. -/
theorem crawlFn_out_of_scope_witness :
    crawlFn scopedOptions outOfScopeFnEnv discoveredNav pendingState =
      ((if pendingState.crawlQueue.length = 0 then
          Except.error GoError.noCrawlingAction
        else Except.ok ()), pendingState, []) :=
  crawlFn_out_of_scope scopedOptions outOfScopeFnEnv discoveredNav pendingState
    (fun u => u != "http://out/") emptyPageHash "" outOfScopePageState
    rfl rfl (fun hcontr => absurd rfl hcontr.1) rfl rfl (by decide)

/-! ## C4 -/

/-- C4: the failure budget. If MaxFailureCount is positive and the
consecutive-failure counter has reached it, the very next loop iteration
returns immediately with nil (successful completion, not an error); a
successful action resets the counter to zero; and a classified failing action
increments it by exactly one. -/
theorem crawl_failure_budget :
    (∀ (opts : CrawlOptions) (env : CrawlIterEnv) (rest : List CrawlIterEnv)
        (st : CrawlState) (f : Nat),
      0 < opts.maxFailureCount → opts.maxFailureCount ≤ f →
      crawlLoop opts (env :: rest) st f =
        { outcome := CrawlOutcome.finished none, finalState := st,
          trace := [] }) ∧
    (∀ (opts : CrawlOptions) (env : CrawlIterEnv) (st : CrawlState) (f : Nat)
        (a : Action) (pending : List Action) (st1 : CrawlState)
        (evs : List CrawlEvent),
      st.crawlQueue = a :: pending →
      ¬(opts.maxCrawlDurationSet ∧ env.timeoutFired) →
      ¬(0 < opts.maxFailureCount ∧ opts.maxFailureCount ≤ f) →
      ¬(0 < opts.maxDepth ∧ opts.maxDepth < a.depth) →
      env.getPage = Except.ok () →
      crawlFn opts env.fnEnv a { st with crawlQueue := pending } =
        (Except.ok (), st1, evs) →
      crawlStep opts env st f =
        StepResult.next st1 0
          (CrawlEvent.dequeued a :: CrawlEvent.processed a :: evs)) ∧
    (∀ (opts : CrawlOptions) (env : CrawlIterEnv) (st : CrawlState) (f : Nat)
        (a : Action) (pending : List Action) (e : GoError) (st1 : CrawlState)
        (evs : List CrawlEvent),
      st.crawlQueue = a :: pending →
      ¬(opts.maxCrawlDurationSet ∧ env.timeoutFired) →
      ¬(0 < opts.maxFailureCount ∧ opts.maxFailureCount ≤ f) →
      ¬(0 < opts.maxDepth ∧ opts.maxDepth < a.depth) →
      env.getPage = Except.ok () →
      crawlFn opts env.fnEnv a { st with crawlQueue := pending } =
        (Except.error e, st1, evs) →
      e ≠ GoError.noCrawlingAction →
      crawlStep opts env st f =
        StepResult.next st1 (f + 1)
          (CrawlEvent.dequeued a :: CrawlEvent.processed a :: evs)) :=
  ⟨crawlLoop_budget_halts, crawlStep_success_resets, crawlStep_error_continues⟩

/-- Witness for C4: with MaxFailureCount = 3 and three accumulated
consecutive failures, the next iteration ends the crawl with nil. -/
theorem crawl_failure_budget_witness :
    crawlLoop budgetOptions [okIterEnv2] pendingState 3 =
      { outcome := CrawlOutcome.finished none, finalState := pendingState,
        trace := [] } :=
  crawl_failure_budget.1 budgetOptions okIterEnv2 [] pendingState 3
    (by decide) (by decide)

/-! ## C5 -/

/-- C5: the depth bound. With MaxDepth = D > 0, no action of depth exceeding
D is ever handed to `crawlFn` (no processed event for it appears in any run's
trace), and a dequeued too-deep action is dropped on the spot: the iteration
emits only the dequeue/drop events and changes nothing but the queue — no
reconstruction, no execution, no page state, no navigation extraction. -/
theorem crawl_depth_bound :
    (∀ (opts : CrawlOptions) (envs : List CrawlIterEnv) (st : CrawlState)
        (f : Nat) (a : Action),
      0 < opts.maxDepth →
      CrawlEvent.processed a ∈ (crawlLoop opts envs st f).trace →
      a.depth ≤ opts.maxDepth) ∧
    (∀ (opts : CrawlOptions) (env : CrawlIterEnv) (st : CrawlState) (f : Nat)
        (a : Action) (pending : List Action),
      st.crawlQueue = a :: pending →
      ¬(opts.maxCrawlDurationSet ∧ env.timeoutFired) →
      ¬(0 < opts.maxFailureCount ∧ opts.maxFailureCount ≤ f) →
      0 < opts.maxDepth → opts.maxDepth < a.depth →
      crawlStep opts env st f =
        StepResult.next { st with crawlQueue := pending } f
          [CrawlEvent.dequeued a, CrawlEvent.droppedByDepth a]) :=
  ⟨fun opts envs st f a hD hmem =>
      crawlLoop_processed_depth opts hD envs st f a hmem,
    crawlStep_depth_drop⟩

/-- Witness for C5: a depth-5 action under MaxDepth = 1 is dropped without
processing. -/
theorem crawl_depth_bound_witness :
    crawlStep depthOptions okIterEnv2 deepQueueState 0 =
      StepResult.next { deepQueueState with crawlQueue := [] } 0
        [CrawlEvent.dequeued deepAction, CrawlEvent.droppedByDepth deepAction] :=
  crawl_depth_bound.2 depthOptions okIterEnv2 deepQueueState 0 deepAction []
    rfl (by decide) (by decide) (by decide) (by decide)

/-! ## C8 -/

/-- C8 counterexample: the seed action is enqueued without registering its
hash in `uniqueActions`, so a discovered navigation whose assigned origin
makes its Hash() equal to the seed's is enqueued as well, and both are
dequeued and processed in the same crawl — two enqueued actions with equal
hashes, both processed. -/
theorem action_dedup_seed_bypass :
    processedActions dedupRun.trace = [seedSiteAction, mutatedNav] ∧
    Action.Hash seedSiteAction = Action.Hash mutatedNav ∧
    seedSiteAction ≠ mutatedNav ∧
    CrawlEvent.offered mutatedNav (Action.Hash discoveredNav) ∈ dedupRun.trace :=
  ⟨by decide, by decide, by decide, by decide⟩

/-- C8 amended: the `uniqueActions` set does guarantee dedup for the
navigation-discovery path: within any run the dedup hashes recorded at offer
events are pairwise distinct — a second action whose discovery-time hash was
already seen is never offered — and every offered hash was absent from the
initial set and is registered in the final set. (The seed enqueued by `Crawl`
itself bypasses this registration; see the counterexample.) -/
theorem crawl_navigation_dedup (opts : CrawlOptions) (envs : List CrawlIterEnv)
    (st : CrawlState) (f : Nat) :
    (offeredHashes (crawlLoop opts envs st f).trace).Nodup ∧
    (∀ h ∈ offeredHashes (crawlLoop opts envs st f).trace,
       h ∈ (crawlLoop opts envs st f).finalState.uniqueActions ∧
         h ∉ st.uniqueActions) :=
  ⟨(crawlLoop_offered_invariant opts envs st f).1,
    (crawlLoop_offered_invariant opts envs st f).2.1⟩

/-- Witness for C8 on a concrete run and its single offered hash. -/
theorem crawl_navigation_dedup_witness :
    "load_url|http://site/|" ∈
      (crawlLoop unboundedOptions [okIterEnv1, okIterEnv2]
        pendingState 0).finalState.uniqueActions ∧
    "load_url|http://site/|" ∉ pendingState.uniqueActions :=
  (crawl_navigation_dedup unboundedOptions [okIterEnv1, okIterEnv2]
    pendingState 0).2 "load_url|http://site/|" (by decide)

/-! ## C9 -/

/-- C9 counterexample: a suggestion for a live INPUT element that has no type
attribute at all is not typed — the `if inputType != nil` guard has no else
branch, so nothing happens to the element. -/
theorem form_untyped_input_skipped :
    applyFormSuggestions [("user", "alice")]
      [("user", { tagName := "INPUT", typeAttr := none })] = [] := by
  decide

/-- C9 amended: during form filling each suggestion is applied independently,
and a suggested value is typed into a resolved live INPUT element exactly
when the element carries a type attribute whose value is neither checkbox nor
radio and the suggested value is non-empty; an INPUT without a type attribute
is skipped entirely. -/
theorem form_typed_input :
    (∀ (suggestions : List (String × String))
        (elementMap : List (String × LiveElement)),
      applyFormSuggestions suggestions elementMap =
        suggestions.flatMap (applySuggestion elementMap)) ∧
    (∀ (elementMap : List (String × LiveElement)) (fieldName value : String)
        (el : LiveElement) (t : String),
      elementMap.find? (fun p => p.1 = fieldName) = some (fieldName, el) →
      el.tagName = "INPUT" → el.typeAttr = some t →
      t ≠ "checkbox" → t ≠ "radio" → value ≠ "" →
      applySuggestion elementMap (fieldName, value) =
        [FormEffect.typedInput fieldName value]) :=
  ⟨fun _ _ => rfl, applySuggestion_typed⟩

/-- Witness for C9 at a concrete text input. -/
theorem form_typed_input_witness :
    applySuggestion [("user", { tagName := "INPUT", typeAttr := some "text" })]
      ("user", "alice") = [FormEffect.typedInput "user" "alice"] :=
  form_typed_input.2 [("user", { tagName := "INPUT", typeAttr := some "text" })]
    "user" "alice" { tagName := "INPUT", typeAttr := some "text" } "text"
    (by decide) rfl rfl (by decide) (by decide) (by decide)
